import Mathlib

/-!
Verification of the HTTP/2 endpoint library core against its specification.

Bytes are modelled as `Nat` (with explicit `< 256` well-formedness where byte
identity matters), byte buffers as `List Nat`, fallible parsing as `Except`,
and a Rust panic as the `none` case of an `Option` result.
-/

deriving instance DecidableEq for Except

namespace Http2

/-- The 9-byte HTTP/2 frame header: 24-bit payload length, 8-bit type,
8-bit flags, 31-bit stream id (1 reserved bit). -/
structure FrameHeader where
  payloadLen : Nat
  frameType : Nat
  flags : Nat
  streamId : Nat
  deriving DecidableEq, Repr

/-- Modelled from the spec: `pack_header` of the frame codec (the shared
`solicit::frame` module is not under `src/`): serializes a `FrameHeader` into
its 9-byte wire form, big-endian, reserved bit of the stream id zero. -/
def packHeader (h : FrameHeader) : List Nat :=
  [ h.payloadLen / 2 ^ 16 % 256
  , h.payloadLen / 2 ^ 8 % 256
  , h.payloadLen % 256
  , h.frameType % 256
  , h.flags % 256
  , h.streamId / 2 ^ 24 % 256
  , h.streamId / 2 ^ 16 % 256
  , h.streamId / 2 ^ 8 % 256
  , h.streamId % 256 ]

/-- A raw frame: the decoded 9-byte header plus the payload bytes that
followed it on the wire (`RawFrame` of the source wraps the same bytes). -/
structure RawFrame where
  header : FrameHeader
  payload : List Nat
  deriving DecidableEq, Repr

/-- The byte sequence a `RawFrame` stands for. -/
def RawFrame.toBytes (r : RawFrame) : List Nat :=
  packHeader r.header ++ r.payload

/-- Well-formedness of a raw frame as read off the wire: all fields and
payload bytes in range. -/
def RawFrame.WF (r : RawFrame) : Prop :=
  r.header.payloadLen < 2 ^ 24 ∧
  r.header.frameType < 2 ^ 8 ∧
  r.header.flags < 2 ^ 8 ∧
  r.header.streamId < 2 ^ 31 ∧
  ∀ b ∈ r.payload, b < 256

instance (r : RawFrame) : Decidable r.WF := by
  unfold RawFrame.WF; infer_instance

/-- The tagged parse-failure taxonomy of the frame codec
(`ParseFrameError` in the source). -/
inductive ParseFrameError where
  | InternalError
  | StreamIdMustBeNonZero
  | StreamIdMustBeZero
  | IncorrectFrameLength (len : Nat)
  | BadPaddingLength
  | StreamDependencyOnItself (id : Nat)
  | UnknownSettings
  | ContinuationExpected
  deriving DecidableEq, Repr

/-- Modelled from the spec: `parse_padded_payload` (shared frame-module helper
not under `src/`). When the padded flag is absent, the whole payload is data.
When present, the first byte is the pad length; padding that exceeds the
remaining payload is a parse error (`test_data_frame_padding_invalid`), and an
empty payload cannot even hold the pad-length byte
(`test_data_frame_padding_empty_payload`). -/
def parsePaddedPayload (payload : List Nat) (padded : Bool) :
    Except ParseFrameError (List Nat × Nat) :=
  if padded then
    match payload with
    | [] => .error .BadPaddingLength
    | padLen :: rest =>
      if rest.length < padLen then .error .BadPaddingLength
      else .ok (rest.take (rest.length - padLen), padLen)
  else .ok (payload, 0)

/-- Modelled from the spec: `FrameBuilder::write_padding` writes the given
number of zero padding bytes. -/
def writePadding (padLen : Nat) : List Nat :=
  List.replicate padLen 0

/-- Flag test on a packed flags byte: `flags & bitmask != 0` for the
power-of-two bitmask `2 ^ k`. -/
def flagBit (flags k : Nat) : Bool :=
  Nat.testBit flags k

/-- The macro `unpack_octets_4!`: big-endian `u32` from the first four
bytes of a buffer. -/
def unpackOctets4 (l : List Nat) : Nat :=
  l.getD 0 0 * 2 ^ 24 + l.getD 1 0 * 2 ^ 16 + l.getD 2 0 * 2 ^ 8 + l.getD 3 0

/-- Big-endian serialization of a `u32` (`FrameBuilder::write_u32`). -/
def packU32 (n : Nat) : List Nat :=
  [n / 2 ^ 24 % 256, n / 2 ^ 16 % 256, n / 2 ^ 8 % 256, n % 256]

/-! DATA frames (`src/solicit/frame/data.rs`). Flag bits: EndStream = 0x1
(bit 0), Padded = 0x8 (bit 3). -/

def DATA_FRAME_TYPE : Nat := 0x0

structure DataFrame where
  flags : Nat
  streamId : Nat
  data : List Nat
  paddingLen : Nat
  deriving DecidableEq, Repr

namespace DataFrame

def isPadded (f : DataFrame) : Bool := flagBit f.flags 3

def isEndOfStream (f : DataFrame) : Bool := flagBit f.flags 0

/-- `DataFrame::payload_len`. -/
def payloadLen (f : DataFrame) : Nat :=
  if f.isPadded then 1 + f.data.length + f.paddingLen else f.data.length

/-- `DataFrame::get_header`. -/
def getHeader (f : DataFrame) : FrameHeader :=
  { payloadLen := f.payloadLen
  , frameType := DATA_FRAME_TYPE
  , flags := f.flags
  , streamId := f.streamId }

/-- `<DataFrame as Frame>::from_raw`. -/
def fromRaw (r : RawFrame) : Except ParseFrameError DataFrame :=
  if r.header.frameType ≠ DATA_FRAME_TYPE then .error .InternalError
  else if r.header.payloadLen ≠ r.payload.length then .error .InternalError
  else if r.header.streamId = 0 then .error .StreamIdMustBeNonZero
  else
    match parsePaddedPayload r.payload (flagBit r.header.flags 3) with
    | .error e => .error e
    | .ok (data, paddingLen) =>
      .ok { streamId := r.header.streamId
          , flags := r.header.flags
          , data := data
          , paddingLen := paddingLen }

/-- `<DataFrame as FrameIR>::serialize_into`, collected as the byte list the
write buffer receives. -/
def serializeInto (f : DataFrame) : List Nat :=
  packHeader f.getHeader ++
    (if f.isPadded then
      [f.paddingLen] ++ f.data ++ writePadding f.paddingLen
    else f.data)

end DataFrame

/-! HEADERS frames (`src/solicit/frame/headers.rs`). Flag bits:
EndStream = 0x1 (bit 0), EndHeaders = 0x4 (bit 2), Padded = 0x8 (bit 3),
Priority = 0x20 (bit 5). -/

def HEADERS_FRAME_TYPE : Nat := 0x1

structure StreamDependency where
  streamId : Nat
  weight : Nat
  isExclusive : Bool
  deriving DecidableEq, Repr

namespace StreamDependency

/-- `StreamDependency::parse` on a buffer of (at least) 5 bytes: the most
significant bit of the first byte is the exclusivity bit; the 31-bit stream
id has its top bit cleared (`id &= !(1 << 31)`, i.e. `% 2 ^ 31` for a 32-bit
value); the fifth byte is the weight. The caller is responsible for the
5-byte bound (the source panics below it). -/
def parse (buf : List Nat) : StreamDependency :=
  { isExclusive := buf.getD 0 0 / 128 % 2 = 1
  , streamId := unpackOctets4 buf % 2 ^ 31
  , weight := buf.getD 4 0 }

/-- `StreamDependency::serialize`: 5 bytes, E-bit folded into the first
byte (`(id >> 24) & 0xFF | e_bit`; the or is a disjoint-bit addition since
the id is 31-bit). -/
def serialize (d : StreamDependency) : List Nat :=
  [ d.streamId / 2 ^ 24 % 256 + (if d.isExclusive then 128 else 0)
  , d.streamId / 2 ^ 16 % 256
  , d.streamId / 2 ^ 8 % 256
  , d.streamId % 256
  , d.weight ]

end StreamDependency

structure HeadersFrame where
  flags : Nat
  streamId : Nat
  headerFragment : List Nat
  streamDep : Option StreamDependency
  paddingLen : Nat
  deriving DecidableEq, Repr

namespace HeadersFrame

/-- `HeadersFrame::payload_len`. -/
def payloadLen (f : HeadersFrame) : Nat :=
  (if flagBit f.flags 3 then 1 + f.paddingLen else 0) +
    (if flagBit f.flags 5 then 5 else 0) + f.headerFragment.length

/-- `HeadersFrame::get_header`. -/
def getHeader (f : HeadersFrame) : FrameHeader :=
  { payloadLen := f.payloadLen
  , frameType := HEADERS_FRAME_TYPE
  , flags := f.flags
  , streamId := f.streamId }

/-- `<HeadersFrame as Frame>::from_raw`. `none` models the panic the source
hits at `&actual[..5]` when the PRIORITY flag is set but fewer than 5 bytes
remain after padding removal. -/
def fromRaw (r : RawFrame) : Option (Except ParseFrameError HeadersFrame) :=
  if r.header.frameType ≠ HEADERS_FRAME_TYPE then some (.error .InternalError)
  else if r.header.payloadLen ≠ r.payload.length then some (.error .InternalError)
  else if r.header.streamId = 0 then some (.error .StreamIdMustBeNonZero)
  else
    match parsePaddedPayload r.payload (flagBit r.header.flags 3) with
    | .error e => some (.error e)
    | .ok (actual, padLen) =>
      if flagBit r.header.flags 5 then
        if actual.length < 5 then none
        else
          let dep := StreamDependency.parse (actual.take 5)
          if dep.streamId = r.header.streamId then
            some (.error (.StreamDependencyOnItself r.header.streamId))
          else
            some (.ok { headerFragment := actual.drop 5
                      , streamId := r.header.streamId
                      , streamDep := some dep
                      , paddingLen := padLen
                      , flags := r.header.flags })
      else
        some (.ok { headerFragment := actual
                  , streamId := r.header.streamId
                  , streamDep := none
                  , paddingLen := padLen
                  , flags := r.header.flags })

/-- `<HeadersFrame as FrameIR>::serialize_into`; `none` models the panic when
the Priority flag is set but no dependency information is present. -/
def serializeInto (f : HeadersFrame) : Option (List Nat) :=
  if flagBit f.flags 5 ∧ f.streamDep.isNone then none
  else
    some (packHeader f.getHeader ++
      (if flagBit f.flags 3 then [f.paddingLen] else []) ++
      (match f.streamDep with
       | some dep => if flagBit f.flags 5 then dep.serialize else []
       | none => []) ++
      f.headerFragment ++
      (if flagBit f.flags 3 then writePadding f.paddingLen else []))

end HeadersFrame

/-! RST_STREAM frames (`src/solicit/frame/rst_stream.rs`). -/

def RST_STREAM_FRAME_LEN : Nat := 4

def RST_STREAM_FRAME_TYPE : Nat := 0x3

structure RstStreamFrame where
  errorCode : Nat
  streamId : Nat
  flags : Nat
  deriving DecidableEq, Repr

namespace RstStreamFrame

/-- `<RstStreamFrame as Frame>::from_raw`. The source checks the declared
payload length, the frame type and the stream id, then reads the error code
with `unpack_octets_4!` straight from the payload bytes; `none` models the
indexing panic when fewer than 4 actual payload bytes are present. -/
def fromRaw (r : RawFrame) : Option (Except ParseFrameError RstStreamFrame) :=
  if r.header.payloadLen ≠ RST_STREAM_FRAME_LEN then some (.error .InternalError)
  else if r.header.frameType ≠ RST_STREAM_FRAME_TYPE then some (.error .InternalError)
  else if r.header.streamId = 0 then some (.error .StreamIdMustBeNonZero)
  else if r.payload.length < 4 then none
  else
    some (.ok { errorCode := unpackOctets4 r.payload
              , streamId := r.header.streamId
              , flags := r.header.flags })

/-- `RstStreamFrame::get_header`. -/
def getHeader (f : RstStreamFrame) : FrameHeader :=
  { payloadLen := RST_STREAM_FRAME_LEN
  , frameType := RST_STREAM_FRAME_TYPE
  , flags := f.flags
  , streamId := f.streamId }

/-- `<RstStreamFrame as FrameIR>::serialize_into`. -/
def serializeInto (f : RstStreamFrame) : List Nat :=
  packHeader f.getHeader ++ packU32 f.errorCode

end RstStreamFrame

/-- Padding bytes of a raw frame are zero: when the Padded flag (bit 3) is
set, the trailing pad-length bytes of the payload are all zero. The
serializer always writes zero padding, so only such frames can round-trip. -/
def RawFrame.paddingZeros (r : RawFrame) : Prop :=
  flagBit r.header.flags 3 = true →
    ∀ b ∈ r.payload.drop (r.payload.length - r.payload.headD 0), b = 0

instance (r : RawFrame) : Decidable r.paddingZeros := by
  unfold RawFrame.paddingZeros; infer_instance

/-- The `while pos < data.len()` loop of `write_part_data`, expressed on the
remaining bytes `data[pos..]`: each iteration carves `min(remaining, max)`
bytes into a DATA frame (`DataFrame::with_data`, default flags 0), sets
END_STREAM when the chunk reaches the end of the data and end-of-stream was
requested, and advances. The fuel bounds the iteration count; `remaining + 1`
iterations suffice whenever `max ≥ 1`. -/
def writePartDataLoop (maxFrameSize streamId : Nat) (endStream : Bool) :
    Nat → List Nat → List DataFrame
  | 0, _ => []
  | _ + 1, [] => []
  | fuel + 1, a :: rest =>
    { flags := if (a :: rest).length ≤ maxFrameSize ∧ endStream = true then 1 else 0
    , streamId := streamId
    , data := (a :: rest).take maxFrameSize
    , paddingLen := 0 } ::
      writePartDataLoop maxFrameSize streamId endStream fuel ((a :: rest).drop maxFrameSize)

/-- `Conn::write_part_data`: the sequence of DATA frames queued for the given
stream, payload and end-of-stream request (peer `max_frame_size` passed
explicitly). An empty payload with end-of-stream requested queues a single
empty DATA frame carrying END_STREAM. -/
def writePartData (streamId : Nat) (data : List Nat) (endStream : Bool)
    (maxFrameSize : Nat) : List DataFrame :=
  if endStream = true ∧ data.length = 0 then
    [{ flags := 1, streamId := streamId, data := [], paddingLen := 0 }]
  else
    writePartDataLoop maxFrameSize streamId endStream (data.length + 1) data

def CONTINUATION_FRAME_TYPE : Nat := 0x9

def FRAME_HEADER_LEN : Nat := 9

inductive HeadersFrameType where
  | headers
  | continuation
  deriving DecidableEq, Repr

/-- `HeadersFrameType::frame_type`. -/
def HeadersFrameType.frameType : HeadersFrameType → Nat
  | .headers => HEADERS_FRAME_TYPE
  | .continuation => CONTINUATION_FRAME_TYPE

/-- `HeadersFrameType::make_flags`: HEADERS frames keep the original flags and
gain END_HEADERS when last; CONTINUATION frames carry only END_HEADERS when
last. The source asserts END_HEADERS is not already set; the caller
(`serialize_into`) is modelled with that guard. -/
def HeadersFrameType.makeFlags (t : HeadersFrameType) (headerFlags : Nat)
    (last : Bool) : Nat :=
  match t with
  | .headers => if last then headerFlags ||| 4 else headerFlags
  | .continuation => if last then 4 else 0

/-- `WriteBufferTailVec::patch_buf`: overwrite `data.length` bytes at `pos`. -/
def patchBuf (buf : List Nat) (pos : Nat) (data : List Nat) : List Nat :=
  buf.take pos ++ data ++ buf.drop (pos + data.length)

/-- `EncodeBufForHeadersMultiFrame` (the sink state): the bytes visible in the
write buffer tail, the offset of the currently open frame's header, the type
of the current frame, and the constant stream id, header flags and max frame
size. -/
structure EncodeBufMF where
  currentFrameType : HeadersFrameType
  currentFrameOffset : Nat
  streamId : Nat
  flags : Nat
  buf : List Nat
  maxFrameSize : Nat
  deriving Repr

namespace EncodeBufMF

/-- `EncodeBufForHeadersMultiFrame::open_frame`: remember the offset and write
a zeroed 9-byte header, patched later by `finish_frame`. -/
def openFrame (st : EncodeBufMF) : EncodeBufMF :=
  { st with
    currentFrameOffset := st.buf.length
    buf := st.buf ++ packHeader { payloadLen := 0, frameType := 0, flags := 0, streamId := 0 } }

/-- `EncodeBufForHeadersMultiFrame::finish_frame`: back-patch the current
frame's header with the real payload length, type and flags. -/
def finishFrame (st : EncodeBufMF) (last : Bool) : EncodeBufMF :=
  let frameLength := st.buf.length - st.currentFrameOffset
  let length := frameLength - FRAME_HEADER_LEN
  { st with
    buf := patchBuf st.buf st.currentFrameOffset
      (packHeader
        { payloadLen := length
        , frameType := st.currentFrameType.frameType
        , flags := st.currentFrameType.makeFlags st.flags last
        , streamId := st.streamId }) }

/-- `EncodeBufForHeadersMultiFrame::rem_in_current_frame`. -/
def remInCurrentFrame (st : EncodeBufMF) : Nat :=
  st.maxFrameSize - (st.buf.length - st.currentFrameOffset - FRAME_HEADER_LEN)

/-- `<EncodeBufForHeadersMultiFrame as EncodeBuf>::write_all`: copy into the
current frame as much as fits; while bytes remain, close the full frame
(not last), open a new one and continue as CONTINUATION. The fuel bounds the
loop; `bytes.length + 2` iterations suffice whenever `max_frame_size ≥ 1`. -/
def writeAll : Nat → List Nat → EncodeBufMF → Option EncodeBufMF
  | 0, _, _ => none
  | fuel + 1, bytes, st =>
    let copyHere := min bytes.length st.remInCurrentFrame
    let st' := { st with buf := st.buf ++ bytes.take copyHere }
    let bytes' := bytes.drop copyHere
    if bytes'.isEmpty then some st'
    else
      writeAll fuel bytes'
        { st'.finishFrame false |>.openFrame with currentFrameType := .continuation }

end EncodeBufMF

/-- `<HeadersMultiFrame as FrameIR>::serialize_into`: open a HEADERS frame,
feed every chunk the HPACK encoder emits through the sink, finish the last
frame with `last = true`. `initial` is the content already in the write
buffer tail; `none` models the source's assert that END_HEADERS must not be
pre-set, or fuel exhaustion (unreachable for `max_frame_size ≥ 1`). -/
def headersMultiSerializeInto (initial : List Nat) (chunks : List (List Nat))
    (flags streamId maxFrameSize : Nat) : Option (List Nat) :=
  if flagBit flags 2 then none
  else
    let st0 := EncodeBufMF.openFrame
      { currentFrameType := .headers
      , currentFrameOffset := initial.length
      , streamId := streamId
      , flags := flags
      , buf := initial
      , maxFrameSize := maxFrameSize }
    (chunks.foldlM (fun st chunk => EncodeBufMF.writeAll (chunk.length + 2) chunk st) st0).map
      (fun st => (st.finishFrame true).buf)

/-- Greedy split of a header block into closed full frames of exactly
`max` bytes plus the final (≤ `max`) fragment; mirrors when `write_all`
closes frames. -/
def splitFrames (max : Nat) : Nat → List Nat → List (List Nat) × List Nat
  | 0, b => ([], b)
  | fuel + 1, b =>
    if b.length ≤ max then ([], b)
    else
      let (cs, lst) := splitFrames max fuel (b.drop max)
      (b.take max :: cs, lst)

/-- Frame type after closing the given pieces: once any frame closed, the
sink is in CONTINUATION mode. -/
def nextType (t : HeadersFrameType) (closed : List (List Nat)) : HeadersFrameType :=
  match closed with
  | [] => t
  | _ :: _ => .continuation

/-- Headers of the closed (non-last) frames: the first carries the sink's
starting type, the rest are CONTINUATION; all with `last = false`. -/
def closedRender (flags sid : Nat) : HeadersFrameType → List (List Nat) → List Nat
  | _, [] => []
  | t, p :: ps =>
    packHeader
      { payloadLen := p.length
      , frameType := t.frameType
      , flags := t.makeFlags flags false
      , streamId := sid } ++ p ++ closedRender flags sid .continuation ps

/-- `splitFrames` with the canonical fuel. -/
def splitRun (max : Nat) (b : List Nat) : List (List Nat) × List Nat :=
  splitFrames max (b.length + 1) b

/-- A sink state in canonical form: `done` already-rendered bytes, a zeroed
9-byte header for the currently open frame, and `cur` payload bytes written
into it so far. Every state `write_all` reaches has this shape. -/
def stateOf (sid flags max : Nat) (done : List Nat) (t : HeadersFrameType)
    (cur : List Nat) : EncodeBufMF :=
  { currentFrameType := t
  , currentFrameOffset := done.length
  , streamId := sid
  , flags := flags
  , buf := done ++ packHeader { payloadLen := 0, frameType := 0, flags := 0, streamId := 0 } ++ cur
  , maxFrameSize := max }

/-- Byte rendering of a list of frames: 9-byte header then payload, each. -/
def renderFrames (frames : List (FrameHeader × List Nat)) : List Nat :=
  (frames.map (fun p => packHeader p.1 ++ p.2)).flatten

/-- The closed (non-last) frames as typed frames. -/
def closedFrames (flags sid : Nat) : HeadersFrameType → List (List Nat) → List (FrameHeader × List Nat)
  | _, [] => []
  | t, p :: ps =>
    ({ payloadLen := p.length
     , frameType := t.frameType
     , flags := t.makeFlags flags false
     , streamId := sid }, p) :: closedFrames flags sid .continuation ps

/-- The complete frame sequence the multi-frame serializer emits for a
header block `b`: the closed full frames then the final frame carrying
`last = true` flags. -/
def headersMultiFrames (flags sid max : Nat) (b : List Nat) : List (FrameHeader × List Nat) :=
  closedFrames flags sid .headers (splitRun max b).1 ++
    [({ payloadLen := (splitRun max b).2.length
      , frameType := (nextType .headers (splitRun max b).1).frameType
      , flags := (nextType .headers (splitRun max b).1).makeFlags flags true
      , streamId := sid }, (splitRun max b).2)]

/-- Header list (`Headers` of the source, name/value pairs). -/
abbrev HeadersList := List (List Nat × List Nat)

/-- `DataOrHeaders`: content of a stream part. -/
inductive DataOrHeaders where
  | data (bytes : List Nat)
  | headers (headers : HeadersList)
  deriving DecidableEq, Repr

/-- `DataOrHeadersWithFlag`: content plus the `last` (end-of-stream) flag. -/
structure DataOrHeadersWithFlag where
  content : DataOrHeaders
  last : Bool
  deriving DecidableEq, Repr

/-- The subset of `error::Error` carried on the per-stream queue. -/
inductive HttpError where
  | rstStreamReceived (code : Nat)
  | internalError (msg : String)
  | pullStreamDied
  deriving DecidableEq, Repr

/-- `StreamQueueSyncReceiver` state: items pushed (FIFO) and not yet taken,
whether the sender half was dropped, and the `eof_received` latch. -/
structure StreamQueueSyncReceiver where
  queue : List (Except HttpError DataOrHeadersWithFlag)
  senderClosed : Bool
  eofReceived : Bool
  deriving DecidableEq, Repr

/-- Outcome of one `poll` of the receiver. -/
inductive SQPoll where
  | notReady
  | item (part : DataOrHeadersWithFlag)
  | eos
  | err (e : HttpError)
  deriving DecidableEq, Repr

/-- `<StreamQueueSyncReceiver as Stream>::poll`: once `eof_received` is set,
always end-of-stream; an empty open channel is not ready; a closed empty
channel yields the "unexpected EOF" internal error (without latching); a
pushed error or a pushed item with `last` latches `eof_received`. -/
def StreamQueueSyncReceiver.poll (r : StreamQueueSyncReceiver) :
    SQPoll × StreamQueueSyncReceiver :=
  if r.eofReceived then (.eos, r)
  else
    match r.queue with
    | [] =>
      if r.senderClosed then
        (.err (.internalError "internal error: unexpected EOF"), r)
      else (.notReady, r)
    | item :: rest =>
      match item with
      | .error e => (.err e, { r with queue := rest, eofReceived := true })
      | .ok part =>
        (.item part, { r with queue := rest, eofReceived := part.last })

/-- Operations other parties perform on the queue between polls. -/
inductive SQOp where
  | push (item : Except HttpError DataOrHeadersWithFlag)
  | closeSender
  | poll
  deriving DecidableEq, Repr

/-- Apply one operation: pushes append (`unbounded_send`), `closeSender`
drops the sender, `poll` advances the receiver. -/
def SQOp.apply (r : StreamQueueSyncReceiver) : SQOp → StreamQueueSyncReceiver
  | .push item => { r with queue := r.queue ++ [item] }
  | .closeSender => { r with senderClosed := true }
  | .poll => r.poll.2

/-- Results of the polls among a sequence of operations. -/
def sqRunPolls (r : StreamQueueSyncReceiver) : List SQOp → List SQPoll
  | [] => []
  | op :: ops =>
    match op with
    | .poll => r.poll.1 :: sqRunPolls (r.poll.2) ops
    | _ => sqRunPolls (op.apply r) ops

/-- The default SETTINGS initial window size (`DEFAULT_SETTINGS.initial_window_size`,
the RFC 7540 default). -/
def DEFAULT_INITIAL_WINDOW_SIZE : Nat := 65535

/-- Modelled from the spec: the `IncreaseInWindow` handle — the stream id, the
locally tracked in-window credit, and the WINDOW_UPDATE increases emitted so
far (sent as `IncreaseInWindow` commands to the writer). `data_frame_processed`
subtracts the delivered byte count; `increase_window` adds the increase and
records it. -/
structure IncreaseInWindow where
  streamId : Nat
  inWindowSize : Int
  emitted : List Nat
  deriving DecidableEq, Repr

def IncreaseInWindow.dataFrameProcessed (w : IncreaseInWindow) (size : Nat) :
    IncreaseInWindow :=
  { w with inWindowSize := w.inWindowSize - size }

def IncreaseInWindow.increaseWindow (w : IncreaseInWindow) (inc : Nat) :
    IncreaseInWindow :=
  { w with inWindowSize := w.inWindowSize + inc, emitted := w.emitted ++ [inc] }

/-- `StreamFromNetwork`: the per-stream receiver plus the window handle. -/
structure StreamFromNetwork where
  rx : StreamQueueSyncReceiver
  increaseInWindow : IncreaseInWindow
  deriving DecidableEq, Repr

/-- `<StreamFromNetwork as Stream>::poll`
(`src/common/stream_from_network.rs`, lines 28 to 53): poll the receiver;
when a data part of `n` bytes is delivered, account `n` against the
in-window, and if the credit is then below half the default initial window
size, emit a window increase of the full default initial window size. -/
def StreamFromNetwork.poll (s : StreamFromNetwork) :
    SQPoll × StreamFromNetwork :=
  match s.rx.poll with
  | (.notReady, rx') => (.notReady, { s with rx := rx' })
  | (.err e, rx') => (.err e, { s with rx := rx' })
  | (.eos, rx') => (.eos, { s with rx := rx' })
  | (.item part, rx') =>
    match part.content with
    | .data b =>
      let w1 := s.increaseInWindow.dataFrameProcessed b.length
      let edge := DEFAULT_INITIAL_WINDOW_SIZE / 2
      let w2 :=
        if w1.inWindowSize < (edge : Int) then
          w1.increaseWindow DEFAULT_INITIAL_WINDOW_SIZE
        else w1
      (.item part, { rx := rx', increaseInWindow := w2 })
    | .headers _ => (.item part, { s with rx := rx' })

/-- Commands produced by popping a stream's outgoing queue
(`HttpStreamCommand`). -/
inductive HttpStreamCommand where
  | data (bytes : List Nat) (endStream : Bool)
  | headers (headers : HeadersList) (endStream : Bool)
  | rst (code : Nat)
  deriving DecidableEq, Repr

/-- Modelled from the spec: the writer-side per-stream record — the ordered
outgoing queue of parts and the stream's outgoing flow-control window. -/
structure WStream where
  outgoing : List DataOrHeadersWithFlag
  outWindow : Nat
  deriving DecidableEq, Repr

/-- The writer-side connection state. `out` is the queued-write byte buffer
(`queued_write`, modelled from the spec as the serialized bytes not yet
flushed); `encoder` is the HPACK encoder modelled abstractly as the chunk
sequence it writes for a header list; the stream map is an ordered
association list. -/
structure WConn where
  peerMaxFrameSize : Nat
  outWindowSize : Nat
  pumpOutWindowSize : Nat
  encoder : HeadersList → List (List Nat)
  streams : List (Nat × WStream)
  out : List Nat

def lookupStream (streams : List (Nat × WStream)) (sid : Nat) : Option WStream :=
  (streams.find? (fun e => e.1 = sid)).map (fun e => e.2)

def updateStream (streams : List (Nat × WStream)) (sid : Nat) (s : WStream) :
    List (Nat × WStream) :=
  streams.map (fun e => if e.1 = sid then (sid, s) else e)

def removeStream (streams : List (Nat × WStream)) (sid : Nat) :
    List (Nat × WStream) :=
  streams.filter (fun e => e.1 ≠ sid)

/-- Modelled from the spec: `HttpStreamCommon::push_back_part` appends a part
to the stream's outgoing queue. -/
def WStream.pushBackPart (s : WStream) (part : DataOrHeadersWithFlag) : WStream :=
  { s with outgoing := s.outgoing ++ [part] }

/-- `Conn::process_stream_enqueue` (`conn_write.rs`, lines 208 to 222): if the
stream exists, push the part onto its queue; otherwise, for a data part,
return the bytes to the pump-out window; headers parts for missing streams
are dropped. Always succeeds. -/
def WConn.processStreamEnqueue (c : WConn) (streamId : Nat)
    (part : DataOrHeadersWithFlag) : Except HttpError WConn :=
  match lookupStream c.streams streamId with
  | some s =>
    .ok { c with streams := updateStream c.streams streamId (s.pushBackPart part) }
  | none =>
    match part.content with
    | .data d => .ok { c with pumpOutWindowSize := c.pumpOutWindowSize + d.length }
    | .headers _ => .ok c

/-- `Conn::has_write_buffer_capacity` (`conn_write.rs`, lines 132 to 134). -/
def WConn.hasWriteBufferCapacity (c : WConn) : Bool :=
  c.out.length < 0x8000

/-- Modelled from the spec: `pop_outg_maybe_remove` — pop the head of the
stream's outgoing queue, clipping a data part to the available stream and
connection out-window credit (the writer may not emit more DATA than the
windows allow); returns the command, the updated stream, the connection
window bytes consumed, and whether the stream survives (it is removed when
its queue drains after its final part). -/
def popOutg (connWindow : Nat) (s : WStream) :
    Option (HttpStreamCommand × WStream × Nat × Bool) :=
  match s.outgoing with
  | [] => none
  | part :: rest =>
    match part.content with
    | .headers hs =>
      some (.headers hs part.last, { s with outgoing := rest }, 0,
        !(rest.isEmpty && part.last))
    | .data d =>
      let w := min s.outWindow connWindow
      if d.length ≤ w then
        some (.data d part.last,
          { s with outgoing := rest, outWindow := s.outWindow - d.length },
          d.length, !(rest.isEmpty && part.last))
      else if w = 0 then none
      else
        some (.data (d.take w) false,
          { s with outgoing := { content := .data (d.drop w), last := part.last } :: rest
                 , outWindow := s.outWindow - w }, w, true)

/-- `Conn::pop_outg_for_stream` (`conn_write.rs`, lines 136 to 146). -/
def WConn.popOutgForStream (c : WConn) (sid : Nat) :
    Option (HttpStreamCommand × WConn × Bool) :=
  match lookupStream c.streams sid with
  | none => none
  | some s =>
    match popOutg c.outWindowSize s with
    | none => none
    | some (cmd, s', n, cont) =>
      some (cmd,
        { c with
          streams := if cont then updateStream c.streams sid s'
                     else removeStream c.streams sid
          outWindowSize := c.outWindowSize - n }, cont)

/-- `Conn::write_part` (`conn_write.rs`, lines 118 to 130): serialize the
command's frames into the queued-write buffer (`write_part_data`,
`write_part_headers` via `HeadersMultiFrame`, `write_part_rst`). -/
def WConn.writePart (c : WConn) (sid : Nat) (cmd : HttpStreamCommand) :
    Option WConn :=
  match cmd with
  | .data d es =>
    some { c with out := c.out ++
      ((writePartData sid d es c.peerMaxFrameSize).map DataFrame.serializeInto).flatten }
  | .headers hs es =>
    (headersMultiSerializeInto c.out (c.encoder hs) (if es then 1 else 0) sid
        c.peerMaxFrameSize).map
      (fun b => { c with out := b })
  | .rst code =>
    some { c with out := c.out ++
      RstStreamFrame.serializeInto { errorCode := code, streamId := sid, flags := 0 } }

/-- Fuel sufficient to drain one stream: one unit per queued part plus one
per queued data byte (a pop either removes a whole part or strips at least
one data byte), plus one for the final empty-pop. -/
def streamFuel (s : WStream) : Nat :=
  1 + (s.outgoing.map (fun p =>
    1 + match p.content with
        | .data d => d.length
        | .headers _ => 0)).sum

def streamFuelOf (c : WConn) (sid : Nat) : Nat :=
  match lookupStream c.streams sid with
  | some s => streamFuel s
  | none => 1

/-- The inner `loop` of `buffer_outg_conn` for one stream: check capacity
(an exhausted watermark returns from the whole pass — third component
`true`), pop, write, continue while the stream survives. -/
def WConn.bufferOutgStreamLoop : Nat → WConn → Nat → Bool → Option (WConn × Bool × Bool)
  | 0, _, _, _ => none
  | fuel + 1, c, sid, updated =>
    if ¬ c.hasWriteBufferCapacity then some (c, updated, true)
    else
      match c.popOutgForStream sid with
      | none => some (c, updated, false)
      | some (cmd, c1, cont) =>
        match c1.writePart sid cmd with
        | none => none
        | some c2 =>
          if cont then WConn.bufferOutgStreamLoop fuel c2 sid true
          else some (c2, true, false)

/-- The outer `for` of `buffer_outg_conn` over the writable stream ids
computed once at entry. -/
def WConn.bufferOutgStreams : List Nat → WConn → Bool → Option (WConn × Bool)
  | [], c, updated => some (c, updated)
  | sid :: sids, c, updated =>
    match WConn.bufferOutgStreamLoop (streamFuelOf c sid) c sid updated with
    | none => none
    | some (c1, upd1, early) =>
      if early then some (c1, upd1)
      else WConn.bufferOutgStreams sids c1 upd1

/-- `stream_map::writable_stream_ids`, per the spec: streams with queued
output and a nonzero out-window. -/
def WConn.writableStreamIds (c : WConn) : List Nat :=
  (c.streams.filter (fun e => !e.2.outgoing.isEmpty && e.2.outWindow != 0)).map
    (fun e => e.1)

/-- `Conn::buffer_outg_conn` (`conn_write.rs`, lines 148 to 179): shortcut on
a full write buffer, then drain each writable stream in turn. -/
def WConn.bufferOutgConn (c : WConn) : Option (WConn × Bool) :=
  if ¬ c.hasWriteBufferCapacity then some (c, false)
  else WConn.bufferOutgStreams c.writableStreamIds c false

/-- Serialized-byte bound for one popped command. -/
def cmdEmitBound (enc : HeadersList → List (List Nat)) :
    HttpStreamCommand → Nat
  | .data d _ => 10 * d.length + 9
  | .headers hs _ => 10 * ((enc hs).flatten).length + 9
  | .rst _ => 13

/-- Serialized-byte bound for one queued part. -/
def partBound (enc : HeadersList → List (List Nat)) (p : DataOrHeadersWithFlag) : Nat :=
  match p.content with
  | .data d => 10 * d.length + 9
  | .headers hs => 10 * ((enc hs).flatten).length + 9

/-- Every part queued on every stream fits the per-part bound `M`. -/
def connPartsBounded (c : WConn) (M : Nat) : Prop :=
  ∀ e ∈ c.streams, ∀ p ∈ e.2.outgoing, partBound c.encoder p ≤ M

def c3cexConn : WConn :=
  { peerMaxFrameSize := 16384, outWindowSize := 100, pumpOutWindowSize := 0
  , encoder := fun _ => []
  , streams := [(1, { outgoing := [{ content := .data (List.replicate 100 7)
                                   , last := false }]
                    , outWindow := 100 })]
  , out := List.replicate 32767 0 }

def c3cexPopped : WConn :=
  { peerMaxFrameSize := 16384, outWindowSize := 0, pumpOutWindowSize := 0
  , encoder := fun _ => []
  , streams := [(1, { outgoing := [], outWindow := 0 })]
  , out := List.replicate 32767 0 }

def c3cexAfter : WConn :=
  { c3cexPopped with out := (List.replicate 32767 (0 : Nat)) ++
      ((writePartData 1 (List.replicate 100 7) false 16384).map
        DataFrame.serializeInto).flatten }

/-- `InMessageStage` (stream record, per the spec): whether the next inbound
HEADERS is the initial one, a trailer, or invalid. -/
inductive InMessageStage where
  | initial
  | afterInitialHeaders
  | afterTrailingHeaders
  deriving DecidableEq, Repr

/-- `HeadersPlace`: where a HEADERS frame stands in the message. -/
inductive HeadersPlace where
  | initial
  | trailing
  deriving DecidableEq, Repr

/-- Modelled from the spec: the client-side stream record fields read and
written by `process_headers` — the message stage, the tracked remaining
content length, and whether a response handler (`peer_tx`) is attached. -/
structure CStream where
  inMessageStage : InMessageStage
  inRemContentLength : Option Nat
  peerTx : Bool
  deriving DecidableEq, Repr

/-- Client-side connection state visible to `process_headers`: the stream
map. -/
structure CConn where
  streams : List (Nat × CStream)
  deriving DecidableEq, Repr

/-- Observable effects of one `process_headers` call. -/
inductive ClientEvent where
  | sentRst (streamId : Nat) (errorCode : Nat)
  | deliveredHeaders (streamId : Nat) (headers : HeadersList) (endStream : Bool)
  | deliveredTrailers (streamId : Nat) (headers : HeadersList)
  deriving DecidableEq, Repr

/-- `ErrorCode::ProtocolError` wire value. -/
def PROTOCOL_ERROR : Nat := 0x1

def lookupCStream (streams : List (Nat × CStream)) (sid : Nat) : Option CStream :=
  (streams.find? (fun e => e.1 = sid)).map (fun e => e.2)

def updateCStream (streams : List (Nat × CStream)) (sid : Nat) (s : CStream) :
    List (Nat × CStream) :=
  streams.map (fun e => if e.1 = sid then (sid, s) else e)

/-- `InMessageStage` to `HeadersPlace` (`client/conn.rs`, lines 455 to 463):
`AfterTrailingHeaders` admits no further HEADERS. -/
def stagePlace : InMessageStage → Option HeadersPlace
  | .initial => some .initial
  | .afterInitialHeaders => some .trailing
  | .afterTrailingHeaders => none

/-- The header name `:status` as bytes. -/
def statusName : List Nat := [58, 115, 116, 97, 116, 117, 115]

/-- The header name `content-length` as bytes. -/
def contentLengthName : List Nat :=
  [99, 111, 110, 116, 101, 110, 116, 45, 108, 101, 110, 103, 116, 104]

/-- Modelled from the spec: decimal parse of a header value. -/
def parseDecimal (s : List Nat) : Option Nat :=
  if s.isEmpty then none
  else
    s.foldl
      (fun acc c => acc.bind
        (fun n => if 48 ≤ c ∧ c ≤ 57 then some (n * 10 + (c - 48)) else none))
      (some 0)

/-- Modelled from the spec: `Headers::status` — the numeric value of the
`:status` pseudo-header, `0` when absent or malformed. -/
def headersStatus (hs : HeadersList) : Nat :=
  match hs.find? (fun h => h.1 = statusName) with
  | some h => (parseDecimal h.2).getD 0
  | none => 0

/-- Modelled from the spec: `Headers::content_length`. -/
def headersContentLength (hs : HeadersList) : Option Nat :=
  match hs.find? (fun h => h.1 = contentLengthName) with
  | some h => parseDecimal h.2
  | none => none

/-- Modelled from the spec: the client (response) headers validator —
trailing headers admit no pseudo-headers; initial headers need `:status`
and no request pseudo-headers. -/
def validateResponseHeaders : HeadersPlace → HeadersList → Bool
  | .trailing, hs => hs.all (fun h => h.1.head? != some 58)
  | .initial, hs =>
    hs.any (fun h => h.1 == statusName) &&
      hs.all (fun h => (h.1.head? != some 58) || (h.1 == statusName))

/-- `Conn::<ClientTypes>::process_headers` (`client/conn.rs`, lines 435 to
523): look the stream up, derive the headers place from the message stage,
validate, enforce the 1xx and trailing END_STREAM rules (a violation sends
RST_STREAM ProtocolError and delivers nothing), record content length,
advance the stage, and deliver to the attached handler. The returned
`Bool` mirrors `Some`/`None` of the returned stream ref; the event list
records RST sends and handler deliveries. -/
def CConn.processHeaders (c : CConn) (sid : Nat) (endStream : Bool)
    (hs : HeadersList) : Except HttpError (CConn × List ClientEvent × Bool) :=
  match lookupCStream c.streams sid with
  | none => .ok (c, [], false)
  | some st =>
    match stagePlace st.inMessageStage with
    | none => .error (.internalError "closed stream must be handled before")
    | some place =>
      if ¬ validateResponseHeaders place hs then
        .ok (c, [.sentRst sid PROTOCOL_ERROR], false)
      else
        match
          (match place with
           | .initial =>
             let status := headersStatus hs
             let status1xx := decide (100 ≤ status ∧ status ≤ 199)
             if status1xx && endStream then none else some status1xx
           | .trailing =>
             if endStream = false then none else some false) with
        | none => .ok (c, [.sentRst sid PROTOCOL_ERROR], false)
        | some status1xx =>
          let st1 :=
            match headersContentLength hs with
            | some n => { st with inRemContentLength := some n }
            | none => st
          let st2 :=
            { st1 with inMessageStage :=
                match place, status1xx with
                | .initial, false => .afterInitialHeaders
                | .initial, true => .initial
                | .trailing, _ => .afterTrailingHeaders }
          let events : List ClientEvent :=
            if status1xx then []
            else if st2.peerTx then
              match place with
              | .initial => [.deliveredHeaders sid hs endStream]
              | .trailing => [.deliveredTrailers sid hs]
            else []
          .ok ({ c with streams := updateCStream c.streams sid st2 },
               events, true)

lemma parsePaddedPayload_ok_not_padded {payload data : List Nat} {padLen : Nat}
    (h : parsePaddedPayload payload false = .ok (data, padLen)) :
    data = payload ∧ padLen = 0 := by
  unfold parsePaddedPayload at h
  simp only [Bool.false_eq_true, if_false, Except.ok.injEq, Prod.mk.injEq] at h
  exact ⟨h.1.symm, h.2.symm⟩

lemma parsePaddedPayload_ok_padded {payload data : List Nat} {padLen : Nat}
    (h : parsePaddedPayload payload true = .ok (data, padLen)) :
    ∃ rest, payload = padLen :: rest ∧ padLen ≤ rest.length ∧
      data = rest.take (rest.length - padLen) := by
  unfold parsePaddedPayload at h
  cases payload with
  | nil => simp at h
  | cons p rest =>
    by_cases hlt : rest.length < p
    · simp [hlt] at h
    · simp only [if_true, if_neg hlt, Except.ok.injEq, Prod.mk.injEq] at h
      obtain ⟨hdata, hpad⟩ := h
      subst hpad
      exact ⟨rest, rfl, by omega, hdata.symm⟩

lemma padded_reconstruct {rest : List Nat} {p : Nat} (hp : p ≤ rest.length)
    (hz : ∀ b ∈ rest.drop (rest.length - p), b = 0) :
    rest.take (rest.length - p) ++ List.replicate p 0 = rest := by
  have hlen : (rest.drop (rest.length - p)).length = p := by
    rw [List.length_drop]; omega
  have hrep : rest.drop (rest.length - p) = List.replicate p 0 := by
    conv_lhs => rw [List.eq_replicate_length.mpr hz]
    rw [hlen]
  conv_rhs => rw [← List.take_append_drop (rest.length - p) rest]
  rw [hrep]

theorem DataFrame.data_serialize_fromRaw {r : RawFrame} {f : DataFrame}
    (hz : r.paddingZeros) (h : DataFrame.fromRaw r = .ok f) :
    DataFrame.serializeInto f = r.toBytes := by
  obtain ⟨⟨pl, ft, fl, sid⟩, payload⟩ := r
  unfold DataFrame.fromRaw at h
  simp only at h
  by_cases h1 : ft ≠ DATA_FRAME_TYPE
  · simp [h1] at h
  push_neg at h1
  rw [if_neg (by simpa using h1)] at h
  by_cases h2 : pl ≠ payload.length
  · simp [h2] at h
  push_neg at h2
  rw [if_neg (by simpa using h2)] at h
  by_cases h3 : sid = 0
  · simp [h3] at h
  rw [if_neg h3] at h
  cases hfl : flagBit fl 3 with
  | false =>
    rw [hfl] at h
    cases hp : parsePaddedPayload payload false with
    | error e => rw [hp] at h; simp at h
    | ok dp =>
      obtain ⟨data, padLen⟩ := dp
      rw [hp] at h
      simp only [Except.ok.injEq] at h
      obtain ⟨hdata, hpad⟩ := parsePaddedPayload_ok_not_padded hp
      subst h
      simp only [DataFrame.serializeInto, DataFrame.getHeader, DataFrame.payloadLen,
        DataFrame.isPadded, RawFrame.toBytes, hfl, if_false, Bool.false_eq_true]
      rw [hdata, h1, h2]
  | true =>
    rw [hfl] at h
    cases hp : parsePaddedPayload payload true with
    | error e => rw [hp] at h; simp at h
    | ok dp =>
      obtain ⟨data, padLen⟩ := dp
      rw [hp] at h
      simp only [Except.ok.injEq] at h
      obtain ⟨rest, hpayload, hple, hdata⟩ := parsePaddedPayload_ok_padded hp
      subst h
      have hzr : ∀ b ∈ rest.drop (rest.length - padLen), b = 0 := by
        have := hz hfl
        rw [hpayload] at this
        simpa [List.length_cons, Nat.succ_sub (by omega : padLen ≤ rest.length),
          Nat.add_sub_cancel, show rest.length + 1 - padLen = (rest.length - padLen) + 1 by omega,
          List.drop_succ_cons] using this
      have hdlen : data.length = rest.length - padLen := by
        rw [hdata, List.length_take]; omega
      simp only [DataFrame.serializeInto, DataFrame.getHeader, DataFrame.payloadLen,
        DataFrame.isPadded, RawFrame.toBytes, hfl, if_true, writePadding]
      have hbody : data ++ List.replicate padLen 0 = rest := by
        rw [hdata]; exact padded_reconstruct hple hzr
      have hpl : 1 + data.length + padLen = pl := by
        rw [hdlen, h2, hpayload, List.length_cons]; omega
      rw [hpl, h1, hpayload]
      simp [hbody]

theorem StreamDependency.serialize_parse {b0 b1 b2 b3 b4 : Nat}
    (h0 : b0 < 256) (h1 : b1 < 256) (h2 : b2 < 256) (h3 : b3 < 256) :
    (StreamDependency.parse [b0, b1, b2, b3, b4]).serialize = [b0, b1, b2, b3, b4] := by
  unfold StreamDependency.parse StreamDependency.serialize unpackOctets4
  simp only [List.getD_cons_zero, List.getD_cons_succ, List.cons.injEq, and_true]
  by_cases he : b0 / 128 % 2 = 1
  · simp only [he, decide_eq_true_eq, if_pos]
    omega
  · simp [he]
    omega

theorem RstStreamFrame.rst_serialize_fromRaw {r : RawFrame} {f : RstStreamFrame}
    (hwf : r.WF) (hlen : r.payload.length = RST_STREAM_FRAME_LEN)
    (h : RstStreamFrame.fromRaw r = some (.ok f)) :
    RstStreamFrame.serializeInto f = r.toBytes := by
  obtain ⟨⟨pl, ft, fl, sid⟩, payload⟩ := r
  obtain ⟨hpl24, hft8, hfl8, hsid31, hbytes⟩ := hwf
  dsimp only at hlen hbytes hpl24 hft8 hfl8 hsid31
  simp only [RST_STREAM_FRAME_LEN] at hlen
  unfold RstStreamFrame.fromRaw at h
  simp only at h
  by_cases h1 : pl ≠ RST_STREAM_FRAME_LEN
  · simp [h1] at h
  push_neg at h1
  rw [if_neg (by simpa using h1)] at h
  by_cases h2 : ft ≠ RST_STREAM_FRAME_TYPE
  · simp [h2] at h
  push_neg at h2
  rw [if_neg (by simpa using h2)] at h
  by_cases h3 : sid = 0
  · simp [h3] at h
  rw [if_neg h3] at h
  rw [if_neg (by omega)] at h
  simp only [Option.some.injEq, Except.ok.injEq] at h
  subst h
  match payload, hlen with
  | [b0, b1, b2, b3], _ =>
    have hb0 : b0 < 256 := hbytes _ (by simp)
    have hb1 : b1 < 256 := hbytes _ (by simp)
    have hb2 : b2 < 256 := hbytes _ (by simp)
    have hb3 : b3 < 256 := hbytes _ (by simp)
    simp only [RstStreamFrame.serializeInto, RstStreamFrame.getHeader, RawFrame.toBytes,
      unpackOctets4, packU32, packHeader, List.getD_cons_zero, List.getD_cons_succ,
      RST_STREAM_FRAME_LEN, RST_STREAM_FRAME_TYPE] at h1 h2 ⊢
    rw [h1, h2]
    simp only [List.cons_append, List.nil_append, List.cons.injEq, and_true, true_and]
    omega

lemma parsePaddedPayload_reconstruct {payload actual : List Nat} {padLen : Nat} {padded : Bool}
    (hp : parsePaddedPayload payload padded = .ok (actual, padLen))
    (hz : padded = true → ∀ b ∈ payload.drop (payload.length - payload.headD 0), b = 0) :
    (if padded then padLen :: (actual ++ writePadding padLen) else actual) = payload ∧
      payload.length = (if padded then 1 + padLen else 0) + actual.length := by
  cases padded with
  | false =>
    obtain ⟨ha, _⟩ := parsePaddedPayload_ok_not_padded hp
    subst ha
    simp
  | true =>
    obtain ⟨rest, hpay, hle, hdata⟩ := parsePaddedPayload_ok_padded hp
    subst hpay
    have hzr : ∀ b ∈ rest.drop (rest.length - padLen), b = 0 := by
      have := hz rfl
      simpa [List.length_cons,
        show rest.length + 1 - padLen = (rest.length - padLen) + 1 by omega,
        List.drop_succ_cons] using this
    have hlen : actual.length = rest.length - padLen := by
      rw [hdata, List.length_take]; omega
    constructor
    · simp only [if_true, List.cons.injEq, true_and, writePadding]
      rw [hdata]
      exact padded_reconstruct hle hzr
    · simp only [if_true, List.length_cons]
      omega

theorem HeadersFrame.headers_serialize_fromRaw {r : RawFrame} {f : HeadersFrame}
    (hwf : r.WF) (hz : r.paddingZeros)
    (h : HeadersFrame.fromRaw r = some (.ok f)) :
    HeadersFrame.serializeInto f = some r.toBytes := by
  obtain ⟨⟨pl, ft, fl, sid⟩, payload⟩ := r
  obtain ⟨hpl24, hft8, hfl8, hsid31, hbytes⟩ := hwf
  dsimp only at hbytes hpl24 hft8 hfl8 hsid31
  have hzz := hz
  unfold RawFrame.paddingZeros at hzz
  dsimp only at hzz
  unfold HeadersFrame.fromRaw at h
  simp only at h
  by_cases h1 : ft ≠ HEADERS_FRAME_TYPE
  · simp [h1] at h
  push_neg at h1
  rw [if_neg (by simpa using h1)] at h
  by_cases h2 : pl ≠ payload.length
  · simp [h2] at h
  push_neg at h2
  rw [if_neg (by simpa using h2)] at h
  by_cases h3 : sid = 0
  · simp [h3] at h
  rw [if_neg h3] at h
  cases hp : parsePaddedPayload payload (flagBit fl 3) with
  | error e => rw [hp] at h; simp at h
  | ok ap =>
    obtain ⟨actual, padLen⟩ := ap
    rw [hp] at h
    obtain ⟨hrecon, hlen⟩ := parsePaddedPayload_reconstruct hp (fun hb => hzz hb)
    have hmem : ∀ b ∈ actual, b < 256 := by
      intro b hb
      apply hbytes
      rw [← hrecon]
      cases hfl3 : flagBit fl 3 <;> simp [hfl3] <;> simp [hfl3] at hrecon ⊢ <;> tauto
    cases hfl5 : flagBit fl 5 with
    | false =>
      rw [hfl5] at h
      simp only [Bool.false_eq_true, if_false, Option.some.injEq, Except.ok.injEq] at h
      subst h
      simp only [HeadersFrame.serializeInto, HeadersFrame.getHeader, HeadersFrame.payloadLen,
        RawFrame.toBytes, hfl5, Bool.false_eq_true, if_false, false_and, Option.isNone_none,
        Option.some.injEq]
      rw [h1, ← hrecon]
      cases hfl3 : flagBit fl 3 <;>
        simp only [hfl3, Bool.false_eq_true, if_false, if_true, List.nil_append,
          Nat.zero_add, HEADERS_FRAME_TYPE] at hlen ⊢ <;>
        rw [h2, hlen] <;>
        simp [List.append_assoc]
    | true =>
      simp only [hfl5, if_true, eq_self_iff_true] at h
      by_cases hlen5 : actual.length < 5
      · simp [hlen5] at h
      rw [if_neg hlen5] at h
      by_cases hdep : (StreamDependency.parse (actual.take 5)).streamId = sid
      · simp [hdep] at h
      rw [if_neg hdep] at h
      simp only [Option.some.injEq, Except.ok.injEq] at h
      subst h
      rcases actual with _ | ⟨a0, _ | ⟨a1, _ | ⟨a2, _ | ⟨a3, _ | ⟨a4, rest2⟩⟩⟩⟩⟩ <;>
        [exact absurd (by simp) hlen5; exact absurd (by simp) hlen5;
         exact absurd (by simp) hlen5; exact absurd (by simp) hlen5;
         exact absurd (by simp) hlen5; skip]
      have hb0 : a0 < 256 := hmem _ (by simp)
      have hb1 : a1 < 256 := hmem _ (by simp)
      have hb2 : a2 < 256 := hmem _ (by simp)
      have hb3 : a3 < 256 := hmem _ (by simp)
      have hser : (StreamDependency.parse ((a0 :: a1 :: a2 :: a3 :: a4 :: rest2).take 5)).serialize
          = [a0, a1, a2, a3, a4] := by
        simp only [List.take_succ_cons, List.take_zero]
        exact StreamDependency.serialize_parse hb0 hb1 hb2 hb3
      simp only [HeadersFrame.serializeInto, HeadersFrame.getHeader, HeadersFrame.payloadLen,
        RawFrame.toBytes, hfl5, if_true, Option.isNone_some, and_false, Bool.false_eq_true,
        if_false, Option.some.injEq, hser]
      rw [h1, ← hrecon]
      cases hfl3 : flagBit fl 3 <;>
        simp only [hfl3, Bool.false_eq_true, if_false, if_true, List.nil_append,
          List.length_cons, List.drop_succ_cons, List.drop_zero, HEADERS_FRAME_TYPE,
          packHeader, writePadding, List.cons_append, List.singleton_append,
          List.append_assoc, List.append_nil, List.cons.injEq, true_and, and_true] at hlen ⊢ <;>
        omega

/-- Claim C1 (corrected), counterexample: the padded DATA frame with header
(length 2, type DATA, flags PADDED, stream 1) and payload bytes [1, 170]
(pad length 1, one nonzero padding byte 0xAA) parses successfully, but
re-serialization writes zero padding, so the original bytes are not
reproduced byte-for-byte. -/
theorem c1_roundtrip_counterexample :
    RawFrame.WF { header := { payloadLen := 2, frameType := 0, flags := 8, streamId := 1 },
                  payload := [1, 170] } ∧
    DataFrame.fromRaw { header := { payloadLen := 2, frameType := 0, flags := 8, streamId := 1 },
                        payload := [1, 170] } =
      .ok { flags := 8, streamId := 1, data := [], paddingLen := 1 } ∧
    DataFrame.serializeInto { flags := 8, streamId := 1, data := [], paddingLen := 1 } ≠
      RawFrame.toBytes { header := { payloadLen := 2, frameType := 0, flags := 8, streamId := 1 },
                         payload := [1, 170] } := by
  decide

/-- Claim C1 (amended): for every well-formed raw frame whose padding bytes
(if the Padded flag is set) are all zero, a successful parse as a DATA,
HEADERS or RST_STREAM frame re-serializes to the original frame bytes
byte-for-byte; for RST_STREAM the actual payload must carry exactly the
declared 4 bytes (the source never checks this and reads the first 4 bytes
unconditionally). -/
theorem c1_frame_codec_roundtrip (r : RawFrame) (hwf : r.WF) (hz : r.paddingZeros) :
    (∀ f, DataFrame.fromRaw r = .ok f → DataFrame.serializeInto f = r.toBytes) ∧
    (∀ f, HeadersFrame.fromRaw r = some (.ok f) →
      HeadersFrame.serializeInto f = some r.toBytes) ∧
    (∀ f, r.payload.length = RST_STREAM_FRAME_LEN →
      RstStreamFrame.fromRaw r = some (.ok f) →
      RstStreamFrame.serializeInto f = r.toBytes) :=
  ⟨fun _ h => DataFrame.data_serialize_fromRaw hz h,
   fun _ h => HeadersFrame.headers_serialize_fromRaw hwf hz h,
   fun _ hlen h => RstStreamFrame.rst_serialize_fromRaw hwf hlen h⟩

/-- Witness for C1: the round-trip theorem applied to a concrete padded DATA
frame with a zero padding byte. -/
theorem c1_frame_codec_roundtrip_witness :
    DataFrame.serializeInto { flags := 8, streamId := 1, data := [], paddingLen := 1 } =
      RawFrame.toBytes { header := { payloadLen := 2, frameType := 0, flags := 8, streamId := 1 },
                         payload := [1, 0] } :=
  (c1_frame_codec_roundtrip
    { header := { payloadLen := 2, frameType := 0, flags := 8, streamId := 1 },
      payload := [1, 0] } (by decide) (by decide)).1 _ (by decide)

/-- Claim C7 (corrected), counterexample: a raw frame declaring payload
length 5 is rejected by `RstStreamFrame::from_raw` with the `InternalError`
variant, not the `IncorrectFrameLength` variant the claim names. -/
theorem c7_rst_length_error_counterexample :
    RstStreamFrame.fromRaw { header := { payloadLen := 5, frameType := 3, flags := 0, streamId := 2 },
                             payload := [0, 0, 0, 1, 0] } =
      some (.error .InternalError) ∧
    RstStreamFrame.fromRaw { header := { payloadLen := 5, frameType := 3, flags := 0, streamId := 2 },
                             payload := [0, 0, 0, 1, 0] } ≠
      some (.error (.IncorrectFrameLength 5)) := by
  decide

/-- Claim C7 (amended): `RstStreamFrame::from_raw` succeeds exactly when the
frame type is 0x3, the declared payload length is exactly 4, the stream id
is nonzero and at least 4 actual payload bytes are present (the source reads
them unchecked); on success the error code is the big-endian u32 of the
first 4 payload bytes; a zero stream id is rejected as
`StreamIdMustBeNonZero`; a declared payload length other than 4 is rejected
with the `InternalError` variant (not `IncorrectFrameLength`). -/
theorem c7_rst_stream_parse (r : RawFrame) :
    (∀ f, RstStreamFrame.fromRaw r = some (.ok f) →
      r.header.frameType = RST_STREAM_FRAME_TYPE ∧
      r.header.payloadLen = RST_STREAM_FRAME_LEN ∧
      r.header.streamId ≠ 0 ∧
      f = { errorCode := unpackOctets4 r.payload
          , streamId := r.header.streamId
          , flags := r.header.flags }) ∧
    (r.header.frameType = RST_STREAM_FRAME_TYPE →
      r.header.payloadLen = RST_STREAM_FRAME_LEN →
      r.header.streamId ≠ 0 → 4 ≤ r.payload.length →
      RstStreamFrame.fromRaw r =
        some (.ok { errorCode := unpackOctets4 r.payload
                  , streamId := r.header.streamId
                  , flags := r.header.flags })) ∧
    (r.header.frameType = RST_STREAM_FRAME_TYPE →
      r.header.payloadLen = RST_STREAM_FRAME_LEN →
      r.header.streamId = 0 →
      RstStreamFrame.fromRaw r = some (.error .StreamIdMustBeNonZero)) ∧
    (r.header.payloadLen ≠ RST_STREAM_FRAME_LEN →
      RstStreamFrame.fromRaw r = some (.error .InternalError)) := by
  obtain ⟨⟨pl, ft, fl, sid⟩, payload⟩ := r
  dsimp only
  unfold RstStreamFrame.fromRaw
  dsimp only
  refine ⟨?_, ?_, ?_, ?_⟩
  · intro f h
    by_cases h1 : pl ≠ RST_STREAM_FRAME_LEN
    · simp [h1] at h
    push_neg at h1
    rw [if_neg (by simpa using h1)] at h
    by_cases h2 : ft ≠ RST_STREAM_FRAME_TYPE
    · simp [h2] at h
    push_neg at h2
    rw [if_neg (by simpa using h2)] at h
    by_cases h3 : sid = 0
    · simp [h3] at h
    rw [if_neg h3] at h
    by_cases h4 : payload.length < 4
    · simp [h4] at h
    rw [if_neg h4] at h
    simp only [Option.some.injEq, Except.ok.injEq] at h
    exact ⟨h2, h1, h3, h.symm⟩
  · intro h2 h1 h3 h4
    rw [if_neg (by simpa using h1), if_neg (by simpa using h2), if_neg h3,
      if_neg (by omega)]
  · intro h2 h1 h3
    rw [if_neg (by simpa using h1), if_neg (by simpa using h2), if_pos h3]
  · intro h1
    rw [if_pos (by simpa using h1)]

/-- Witness for C7: the amended characterization applied to a concrete valid
RST_STREAM frame. -/
theorem c7_rst_stream_parse_witness :
    RstStreamFrame.fromRaw { header := { payloadLen := 4, frameType := 3, flags := 0, streamId := 1 },
                             payload := [0, 0, 0, 1] } =
      some (.ok { errorCode := 1, streamId := 1, flags := 0 }) :=
  (c7_rst_stream_parse
    { header := { payloadLen := 4, frameType := 3, flags := 0, streamId := 1 },
      payload := [0, 0, 0, 1] }).2.1 rfl rfl (by decide) (by decide)

/-- Claim C9 (code bug): `HeadersFrame::from_raw` is not total. On the
well-formed HEADERS frame with the PRIORITY flag set and an empty payload
(shorter than the 5-byte stream-dependency field) the source panics at the
slice `&actual[..5]`, modelled here as the `none` result. -/
theorem c9_headers_fromRaw_panics :
    RawFrame.WF { header := { payloadLen := 0, frameType := 1, flags := 32, streamId := 1 },
                  payload := [] } ∧
    HeadersFrame.fromRaw { header := { payloadLen := 0, frameType := 1, flags := 32, streamId := 1 },
                           payload := [] } = none := by
  decide

/-! Outbound DATA chunking: `Conn::write_part_data`
(`src/common/conn_write.rs`, lines 59 to 94). -/

lemma writePartDataLoop_nil (maxFrameSize streamId : Nat) (endStream : Bool) :
    ∀ fuel, writePartDataLoop maxFrameSize streamId endStream fuel [] = [] := by
  intro fuel
  cases fuel <;> rfl

lemma writePartDataLoop_spec (maxFrameSize streamId : Nat) (endStream : Bool)
    (hmax : 0 < maxFrameSize) :
    ∀ fuel rem, rem.length < fuel →
      ((writePartDataLoop maxFrameSize streamId endStream fuel rem).map
          (fun f => f.data)).flatten = rem ∧
      (∀ f ∈ writePartDataLoop maxFrameSize streamId endStream fuel rem,
        f.data.length ≤ maxFrameSize ∧ f.streamId = streamId ∧ f.paddingLen = 0) ∧
      (rem = [] → writePartDataLoop maxFrameSize streamId endStream fuel rem = []) ∧
      (rem ≠ [] → ∃ ini lst,
        writePartDataLoop maxFrameSize streamId endStream fuel rem = ini ++ [lst] ∧
        lst.flags = (if endStream then 1 else 0) ∧
        ∀ f ∈ ini, f.flags = 0) := by
  intro fuel
  induction fuel with
  | zero => intro rem h; simp at h
  | succ fuel ih =>
    intro rem hlt
    match rem with
    | [] =>
      refine ⟨rfl, by simp [writePartDataLoop], fun _ => rfl, fun hne => absurd rfl hne⟩
    | a :: rest =>
      simp only [writePartDataLoop]
      by_cases hle : (a :: rest).length ≤ maxFrameSize
      · have hdrop : (a :: rest).drop maxFrameSize = [] := by
          rw [List.drop_eq_nil_iff]
          omega
        have htake : (a :: rest).take maxFrameSize = a :: rest :=
          List.take_of_length_le hle
        rw [hdrop, writePartDataLoop_nil]
        refine ⟨by simp [htake], ?_, by simp, ?_⟩
        · intro f hf
          simp only [List.mem_singleton] at hf
          subst hf
          refine ⟨by simpa [htake] using hle, rfl, rfl⟩
        · intro _
          cases endStream with
          | false => exact ⟨[], _, rfl, by simp, by simp⟩
          | true => exact ⟨[], _, rfl, by rw [if_pos (And.intro hle rfl), if_pos rfl], by simp⟩
      · push_neg at hle
        simp only [List.length_cons] at hlt hle
        have hrec := ih ((a :: rest).drop maxFrameSize)
          (by rw [List.length_drop]; simp only [List.length_cons]; omega)
        obtain ⟨hflat, hall, hnil, hlast⟩ := hrec
        have hne2 : (a :: rest).drop maxFrameSize ≠ [] := by
          intro hcon
          rw [List.drop_eq_nil_iff] at hcon
          simp only [List.length_cons] at hcon
          omega
        obtain ⟨ini, lst, heq, hlf, hini⟩ := hlast hne2
        refine ⟨?_, ?_, ?_, ?_⟩
        · simp only [List.map_cons, List.flatten_cons, hflat]
          exact List.take_append_drop _ _
        · intro f hf
          simp only [List.mem_cons] at hf
          rcases hf with hf | hf
          · subst hf
            refine ⟨by rw [List.length_take]; omega, rfl, rfl⟩
          · exact hall f hf
        · intro hcon; cases hcon
        · intro _
          refine ⟨{ flags := if (a :: rest).length ≤ maxFrameSize ∧ endStream = true then 1 else 0
                  , streamId := streamId, data := (a :: rest).take maxFrameSize
                  , paddingLen := 0 } :: ini, lst, by rw [heq, List.cons_append], hlf, ?_⟩
          intro f hf
          simp only [List.mem_cons] at hf
          rcases hf with hf | hf
          · subst hf
            rw [if_neg]
            intro hcon
            have := hcon.1
            simp only [List.length_cons] at this
            omega
          · exact hini f hf

/-- Claim C5 (confirmed, for a positive `max_frame_size`, as the HTTP/2
SETTINGS_MAX_FRAME_SIZE range guarantees): `Conn::write_part_data` queues
DATA frames whose payloads, concatenated in queue order, equal the given
payload, each payload at most `max_frame_size` bytes, all for the given
stream; when end_stream is requested END_STREAM sits on exactly the last
queued frame (a single empty DATA frame with END_STREAM when the payload is
empty); without it no queued frame carries END_STREAM. -/
theorem c5_write_part_data (streamId : Nat) (data : List Nat) (endStream : Bool)
    (maxFrameSize : Nat) (hmax : 0 < maxFrameSize) :
    ((writePartData streamId data endStream maxFrameSize).map
        (fun f => f.data)).flatten = data ∧
    (∀ f ∈ writePartData streamId data endStream maxFrameSize,
      f.data.length ≤ maxFrameSize ∧ f.streamId = streamId) ∧
    (endStream = true → ∃ ini lst,
      writePartData streamId data endStream maxFrameSize = ini ++ [lst] ∧
      lst.isEndOfStream = true ∧ ∀ f ∈ ini, f.isEndOfStream = false) ∧
    (endStream = false → ∀ f ∈ writePartData streamId data endStream maxFrameSize,
      f.isEndOfStream = false) ∧
    (endStream = true → data = [] →
      writePartData streamId data endStream maxFrameSize =
        [{ flags := 1, streamId := streamId, data := [], paddingLen := 0 }]) := by
  unfold writePartData
  by_cases hc : endStream = true ∧ data.length = 0
  · rw [if_pos hc]
    obtain ⟨hes, hdl⟩ := hc
    have hdata : data = [] := List.eq_nil_of_length_eq_zero hdl
    subst hdata hes
    refine ⟨rfl, by simp, ?_, by simp, fun _ _ => rfl⟩
    intro _
    refine ⟨[], { flags := 1, streamId := streamId, data := [], paddingLen := 0 },
      rfl, ?_, by simp⟩
    show flagBit 1 0 = true
    decide
  · rw [if_neg hc]
    obtain ⟨hflat, hall, hnil, hlast⟩ :=
      writePartDataLoop_spec maxFrameSize streamId endStream hmax
        (data.length + 1) data (by omega)
    refine ⟨hflat, fun f hf => ⟨(hall f hf).1, (hall f hf).2.1⟩, ?_, ?_, ?_⟩
    · intro hes
      have hne : data ≠ [] := by
        intro hd
        exact hc ⟨hes, by rw [hd]; rfl⟩
      obtain ⟨ini, lst, heq, hlf, hini⟩ := hlast hne
      refine ⟨ini, lst, heq, ?_, ?_⟩
      · rw [hes] at hlf
        simp only [if_pos rfl] at hlf
        simp only [DataFrame.isEndOfStream, hlf]
        decide
      · intro f hf
        simp only [DataFrame.isEndOfStream, hini f hf]
        decide
    · intro hes
      subst hes
      intro f hf
      by_cases hd : data = []
      · rw [hnil hd] at hf
        simp at hf
      · obtain ⟨ini, lst, heq, hlf, hini⟩ := hlast hd
        rw [heq] at hf
        simp only [List.mem_append, List.mem_singleton] at hf
        rcases hf with hf | hf
        · simp only [DataFrame.isEndOfStream, hini f hf]
          decide
        · subst hf
          simp only [Bool.false_eq_true, if_false] at hlf
          simp only [DataFrame.isEndOfStream, hlf]
          decide
    · intro hes hdata
      exact absurd ⟨hes, by rw [hdata]; rfl⟩ hc

/-- Witness for C5: the chunking theorem applied to a concrete 3-byte payload
with max frame size 2 and end-of-stream requested. -/
theorem c5_write_part_data_witness :
    ((writePartData 1 [10, 20, 30] true 2).map (fun f => f.data)).flatten =
      [10, 20, 30] :=
  (c5_write_part_data 1 [10, 20, 30] true 2 (by decide)).1

/-! HEADERS/CONTINUATION fragmentation: `HeadersMultiFrame`
(`src/solicit/frame/headers.rs`, lines 370 to 530). The HPACK encoder is not
under `src/`, so its output is modelled abstractly as the sequence of byte
chunks it hands to the sink (`EncodeBuf::write_all` calls); their
concatenation is the HPACK encoding of the header list. -/

/-- Fuel irrelevance for `splitFrames`: any fuel above the input length gives
the same result (each recursion step removes `max ≥ 1` bytes). -/
lemma splitFrames_fuel {max : Nat} (hmax : 0 < max) :
    ∀ f1, ∀ b : List Nat, ∀ f2, b.length < f1 → b.length < f2 →
      splitFrames max f1 b = splitFrames max f2 b := by
  intro f1
  induction f1 with
  | zero => intro b f2 h; omega
  | succ f1 ih =>
    intro b f2 h1 h2
    match f2 with
    | 0 => omega
    | f2 + 1 =>
      simp only [splitFrames]
      by_cases hle : b.length ≤ max
      · rw [if_pos hle, if_pos hle]
      · rw [if_neg hle, if_neg hle]
        push_neg at hle
        have hd : (b.drop max).length < f1 := by
          rw [List.length_drop]; omega
        have hd2 : (b.drop max).length < f2 := by
          rw [List.length_drop]; omega
        rw [ih (b.drop max) f2 hd hd2]

lemma splitRun_eq {max : Nat} (hmax : 0 < max) (b : List Nat) :
    splitRun max b =
      if b.length ≤ max then ([], b)
      else ((b.take max) :: (splitRun max (b.drop max)).1,
            (splitRun max (b.drop max)).2) := by
  unfold splitRun
  conv_lhs => rw [splitFrames]
  by_cases hle : b.length ≤ max
  · rw [if_pos hle, if_pos hle]
  · rw [if_neg hle, if_neg hle]
    push_neg at hle
    rw [splitFrames_fuel hmax (b.length) (b.drop max) ((b.drop max).length + 1)
      (by rw [List.length_drop]; omega) (by omega)]

lemma splitRun_flatten {max : Nat} (hmax : 0 < max) (b : List Nat) :
    (splitRun max b).1.flatten ++ (splitRun max b).2 = b := by
  suffices H : ∀ n, ∀ b : List Nat, b.length ≤ n →
      (splitRun max b).1.flatten ++ (splitRun max b).2 = b from
    H b.length b le_rfl
  intro n
  induction n with
  | zero =>
    intro b hb
    rw [splitRun_eq hmax, if_pos (by omega)]
    simp
  | succ n ih =>
    intro b hb
    rw [splitRun_eq hmax]
    by_cases hle : b.length ≤ max
    · rw [if_pos hle]
      simp
    · rw [if_neg hle]
      push_neg at hle
      have := ih (b.drop max) (by rw [List.length_drop]; omega)
      simp only [List.flatten_cons, List.append_assoc, this]
      exact List.take_append_drop _ _

lemma splitRun_snd_le {max : Nat} (hmax : 0 < max) (b : List Nat) :
    (splitRun max b).2.length ≤ max := by
  suffices H : ∀ n, ∀ b : List Nat, b.length ≤ n → (splitRun max b).2.length ≤ max from
    H b.length b le_rfl
  intro n
  induction n with
  | zero =>
    intro b hb
    rw [splitRun_eq hmax, if_pos (by omega)]
    dsimp only
    omega
  | succ n ih =>
    intro b hb
    rw [splitRun_eq hmax]
    by_cases hle : b.length ≤ max
    · rw [if_pos hle]
      exact hle
    · rw [if_neg hle]
      push_neg at hle
      exact ih (b.drop max) (by rw [List.length_drop]; omega)

lemma splitRun_fst_len {max : Nat} (hmax : 0 < max) (b : List Nat) :
    ∀ p ∈ (splitRun max b).1, p.length = max := by
  suffices H : ∀ n, ∀ b : List Nat, b.length ≤ n →
      ∀ p ∈ (splitRun max b).1, p.length = max from
    H b.length b le_rfl
  intro n
  induction n with
  | zero =>
    intro b hb
    rw [splitRun_eq hmax, if_pos (by omega)]
    simp
  | succ n ih =>
    intro b hb
    rw [splitRun_eq hmax]
    by_cases hle : b.length ≤ max
    · simp [hle]
    · rw [if_neg hle]
      push_neg at hle
      intro p hp
      simp only [List.mem_cons] at hp
      rcases hp with hp | hp
      · subst hp
        rw [List.length_take]
        omega
      · exact ih (b.drop max) (by rw [List.length_drop]; omega) p hp

lemma splitRun_append {max : Nat} (hmax : 0 < max) (X Y : List Nat) :
    splitRun max (X ++ Y) =
      ((splitRun max X).1 ++ (splitRun max ((splitRun max X).2 ++ Y)).1,
       (splitRun max ((splitRun max X).2 ++ Y)).2) := by
  suffices H : ∀ n, ∀ X : List Nat, X.length ≤ n → ∀ Y : List Nat,
      splitRun max (X ++ Y) =
        ((splitRun max X).1 ++ (splitRun max ((splitRun max X).2 ++ Y)).1,
         (splitRun max ((splitRun max X).2 ++ Y)).2) from
    H X.length X le_rfl Y
  intro n
  induction n with
  | zero =>
    intro X hX Y
    have hXnil : X = [] := List.eq_nil_of_length_eq_zero (by omega)
    subst hXnil
    rw [splitRun_eq hmax ([] : List Nat), if_pos (by simp)]
    simp
  | succ n ih =>
    intro X hX Y
    by_cases hle : X.length ≤ max
    · rw [splitRun_eq hmax X, if_pos hle]
      simp
    · rw [splitRun_eq hmax X, if_neg hle, splitRun_eq hmax (X ++ Y),
        if_neg (by rw [List.length_append]; push_neg at hle ⊢; omega)]
      push_neg at hle
      have htake : (X ++ Y).take max = X.take max := by
        rw [List.take_append_of_le_length (by omega)]
      have hdrop : (X ++ Y).drop max = X.drop max ++ Y := by
        rw [List.drop_append_of_le_length (by omega)]
      rw [htake, hdrop, ih (X.drop max) (by rw [List.length_drop]; omega) Y]
      simp

lemma packHeader_length (h : FrameHeader) : (packHeader h).length = 9 := rfl

lemma stateOf_buf_length (sid flags max : Nat) (done : List Nat)
    (t : HeadersFrameType) (cur : List Nat) :
    (stateOf sid flags max done t cur).buf.length = done.length + 9 + cur.length := by
  simp only [stateOf, List.length_append, packHeader_length]

lemma remInCurrentFrame_stateOf (sid flags max : Nat) (done : List Nat)
    (t : HeadersFrameType) (cur : List Nat) :
    (stateOf sid flags max done t cur).remInCurrentFrame = max - cur.length := by
  unfold EncodeBufMF.remInCurrentFrame
  rw [stateOf_buf_length]
  dsimp only [stateOf]
  simp only [FRAME_HEADER_LEN]
  omega

lemma patchBuf_mid (done mid cur data : List Nat) (hmid : mid.length = 9)
    (hdata : data.length = 9) :
    patchBuf (done ++ mid ++ cur) done.length data = done ++ data ++ cur := by
  unfold patchBuf
  have h1 : List.take done.length (done ++ mid ++ cur) = done := by
    rw [List.append_assoc]
    exact List.take_left done (mid ++ cur)
  have h2 : List.drop (done.length + 9) (done ++ mid ++ cur) = cur := by
    have hlen : (done ++ mid).length = done.length + 9 := by
      rw [List.length_append, hmid]
    rw [← hlen]
    exact List.drop_left (done ++ mid) cur
  rw [hdata, h1, h2]

lemma finishFrame_stateOf (sid flags max : Nat) (done : List Nat)
    (t : HeadersFrameType) (cur : List Nat) (last : Bool) :
    (stateOf sid flags max done t cur).finishFrame last =
      { currentFrameType := t
      , currentFrameOffset := done.length
      , streamId := sid
      , flags := flags
      , buf := done ++ packHeader
          { payloadLen := cur.length
          , frameType := t.frameType
          , flags := t.makeFlags flags last
          , streamId := sid } ++ cur
      , maxFrameSize := max } := by
  unfold EncodeBufMF.finishFrame
  have hlen : (stateOf sid flags max done t cur).buf.length -
      (stateOf sid flags max done t cur).currentFrameOffset - FRAME_HEADER_LEN = cur.length := by
    rw [stateOf_buf_length]
    simp only [stateOf, FRAME_HEADER_LEN]
    omega
  simp only [FRAME_HEADER_LEN] at hlen
  simp only [stateOf, EncodeBufMF.mk.injEq, FRAME_HEADER_LEN, true_and, and_true] at hlen ⊢
  rw [hlen]
  exact patchBuf_mid done _ cur _ rfl rfl

/-- Closing the current frame (not last) and opening a fresh CONTINUATION
frame moves the closed frame's bytes into `done`. -/
lemma close_open_stateOf (sid flags max : Nat) (done : List Nat)
    (t : HeadersFrameType) (cur : List Nat) :
    ({ ((stateOf sid flags max done t cur).finishFrame false).openFrame with
        currentFrameType := .continuation }) =
      stateOf sid flags max
        (done ++ packHeader
          { payloadLen := cur.length
          , frameType := t.frameType
          , flags := t.makeFlags flags false
          , streamId := sid } ++ cur)
        .continuation [] := by
  rw [finishFrame_stateOf]
  simp [EncodeBufMF.openFrame, stateOf, packHeader_length]

/-- Appending bytes to the current frame payload. -/
lemma extend_stateOf (sid flags max : Nat) (done : List Nat)
    (t : HeadersFrameType) (cur extra : List Nat) :
    ({ stateOf sid flags max done t cur with
        buf := (stateOf sid flags max done t cur).buf ++ extra }) =
      stateOf sid flags max done t (cur ++ extra) := by
  simp [stateOf, List.append_assoc]

lemma nextType_continuation (cs : List (List Nat)) :
    nextType .continuation cs = .continuation := by
  cases cs <;> rfl

lemma nextType_cons (t : HeadersFrameType) (p : List Nat) (ps : List (List Nat)) :
    nextType t (p :: ps) = .continuation := rfl

lemma closedRender_cons (flags sid : Nat) (t : HeadersFrameType) (p : List Nat)
    (ps : List (List Nat)) :
    closedRender flags sid t (p :: ps) =
      packHeader
        { payloadLen := p.length
        , frameType := t.frameType
        , flags := t.makeFlags flags false
        , streamId := sid } ++ p ++ closedRender flags sid .continuation ps := rfl

lemma writeAll_spec {sid flags max : Nat} (hmax : 0 < max) :
    ∀ fuel bytes done t cur,
      cur.length ≤ max →
      bytes.length + (if cur.length < max then 1 else 2) ≤ fuel →
      EncodeBufMF.writeAll fuel bytes (stateOf sid flags max done t cur) =
        some (stateOf sid flags max
          (done ++ closedRender flags sid t (splitRun max (cur ++ bytes)).1)
          (nextType t (splitRun max (cur ++ bytes)).1)
          (splitRun max (cur ++ bytes)).2) := by
  intro fuel
  induction fuel with
  | zero =>
    intro bytes done t cur hcur hfuel
    split at hfuel <;> omega
  | succ fuel ih =>
    intro bytes done t cur hcur hfuel
    rw [EncodeBufMF.writeAll]
    simp only [remInCurrentFrame_stateOf]
    by_cases hfit : bytes.length ≤ max - cur.length
    · have hcopy : min bytes.length (max - cur.length) = bytes.length := by omega
      rw [hcopy, List.take_length]
      have hdropnil : bytes.drop bytes.length = [] := by
        simp
      rw [hdropnil]
      simp only [List.isEmpty_nil, if_true]
      rw [extend_stateOf]
      rw [splitRun_eq hmax, if_pos (by rw [List.length_append]; omega)]
      simp only [closedRender, nextType, List.append_nil]
    · push_neg at hfit
      have hcopy : min bytes.length (max - cur.length) = max - cur.length := by omega
      rw [hcopy]
      have hne : ¬ (bytes.drop (max - cur.length)).isEmpty = true := by
        rw [List.isEmpty_iff]
        intro hcon
        have := congrArg List.length hcon
        rw [List.length_drop] at this
        simp only [List.length_nil] at this
        omega
      rw [if_neg hne]
      rw [extend_stateOf, close_open_stateOf]
      have hcurfull : (cur ++ bytes.take (max - cur.length)).length = max := by
        rw [List.length_append, List.length_take]
        omega
      have hih := ih (bytes.drop (max - cur.length))
        (done ++ packHeader
          { payloadLen := (cur ++ bytes.take (max - cur.length)).length
          , frameType := t.frameType
          , flags := t.makeFlags flags false
          , streamId := sid } ++ (cur ++ bytes.take (max - cur.length)))
        .continuation [] (by simp)
        (by
          simp only [List.length_nil, List.length_drop]
          rw [if_pos (by omega)]
          split at hfuel <;> omega)
      rw [List.nil_append] at hih
      -- relate splitRun of the whole to the head piece plus the rest
      have hsplit : splitRun max (cur ++ bytes) =
          ((cur ++ bytes.take (max - cur.length)) :: (splitRun max (bytes.drop (max - cur.length))).1,
           (splitRun max (bytes.drop (max - cur.length))).2) := by
        rw [splitRun_eq hmax, if_neg (by rw [List.length_append]; omega)]
        have htk : (cur ++ bytes).take max = cur ++ bytes.take (max - cur.length) := by
          rw [List.take_append_eq_append_take, List.take_of_length_le (by omega)]
        have hdp : (cur ++ bytes).drop max = bytes.drop (max - cur.length) := by
          rw [List.drop_append_eq_append_drop,
            List.drop_eq_nil_of_le (by omega), List.nil_append]
        rw [htk, hdp]
      rw [hih, hsplit, nextType_cons, nextType_continuation, closedRender_cons]
      simp [List.append_assoc]

lemma nextType_append (t : HeadersFrameType) (cs1 cs2 : List (List Nat)) :
    nextType t (cs1 ++ cs2) = nextType (nextType t cs1) cs2 := by
  cases cs1 with
  | nil => rfl
  | cons p ps =>
    rw [List.cons_append, nextType_cons, nextType_cons, nextType_continuation]

lemma closedRender_append (flags sid : Nat) (t : HeadersFrameType)
    (cs1 cs2 : List (List Nat)) :
    closedRender flags sid t (cs1 ++ cs2) =
      closedRender flags sid t cs1 ++
        closedRender flags sid (nextType t cs1) cs2 := by
  induction cs1 generalizing t with
  | nil => rfl
  | cons p ps ih =>
    rw [List.cons_append, closedRender_cons, closedRender_cons, nextType_cons,
      ih .continuation, nextType_continuation]
    simp [List.append_assoc]

/-- Folding the encoder's chunk writes through the sink from a canonical
state: the result is the canonical state for the concatenated bytes. -/
lemma foldWrite_spec {sid flags max : Nat} (hmax : 0 < max) :
    ∀ chunks : List (List Nat), ∀ done : List Nat, ∀ t : HeadersFrameType,
      ∀ cur : List Nat, cur.length ≤ max →
      List.foldlM (fun st chunk => EncodeBufMF.writeAll (chunk.length + 2) chunk st)
          (stateOf sid flags max done t cur) chunks =
        some (stateOf sid flags max
          (done ++ closedRender flags sid t (splitRun max (cur ++ chunks.flatten)).1)
          (nextType t (splitRun max (cur ++ chunks.flatten)).1)
          (splitRun max (cur ++ chunks.flatten)).2) := by
  intro chunks
  induction chunks with
  | nil =>
    intro done t cur hcur
    rw [show List.foldlM (fun st chunk => EncodeBufMF.writeAll (chunk.length + 2) chunk st)
        (stateOf sid flags max done t cur) [] = some (stateOf sid flags max done t cur) from rfl]
    rw [List.flatten_nil, List.append_nil, splitRun_eq hmax, if_pos hcur]
    simp [closedRender, nextType]
  | cons c cs ih =>
    intro done t cur hcur
    have hstep : List.foldlM (fun st chunk => EncodeBufMF.writeAll (chunk.length + 2) chunk st)
        (stateOf sid flags max done t cur) (c :: cs) =
        (EncodeBufMF.writeAll (c.length + 2) c (stateOf sid flags max done t cur) >>=
          fun st => List.foldlM (fun st chunk => EncodeBufMF.writeAll (chunk.length + 2) chunk st) st cs) := rfl
    rw [hstep, writeAll_spec hmax (c.length + 2) c done t cur hcur (by split <;> omega)]
    rw [show ∀ (a : EncodeBufMF) (f : EncodeBufMF → Option EncodeBufMF), (some a >>= f) = f a from fun a f => rfl]
    rw [ih _ _ _ (splitRun_snd_le hmax (cur ++ c))]
    have hcomp := splitRun_append hmax (cur ++ c) cs.flatten
    rw [List.flatten_cons, ← List.append_assoc, hcomp]
    rw [closedRender_append, nextType_append]
    simp [List.append_assoc]

lemma closedRender_eq_render (flags sid : Nat) (t : HeadersFrameType)
    (cs : List (List Nat)) :
    closedRender flags sid t cs = renderFrames (closedFrames flags sid t cs) := by
  induction cs generalizing t with
  | nil => rfl
  | cons p ps ih =>
    rw [closedRender_cons, ih]
    simp [closedFrames, renderFrames, List.append_assoc]

lemma headersMultiSerializeInto_eq (initial : List Nat) (chunks : List (List Nat))
    (flags sid max : Nat) (hmax : 0 < max) (hEH : flagBit flags 2 = false) :
    headersMultiSerializeInto initial chunks flags sid max =
      some (initial ++ renderFrames (headersMultiFrames flags sid max chunks.flatten)) := by
  unfold headersMultiSerializeInto
  rw [if_neg (by rw [hEH]; simp)]
  have hst0 : EncodeBufMF.openFrame
      { currentFrameType := .headers
      , currentFrameOffset := initial.length
      , streamId := sid
      , flags := flags
      , buf := initial
      , maxFrameSize := max } = stateOf sid flags max initial .headers [] := by
    simp [EncodeBufMF.openFrame, stateOf]
  rw [hst0]
  dsimp only
  rw [foldWrite_spec hmax chunks initial .headers [] (by simp)]
  rw [List.nil_append]
  simp only [Option.map_some']
  rw [finishFrame_stateOf]
  unfold headersMultiFrames renderFrames
  simp only [closedRender_eq_render, renderFrames, List.map_append, List.map_cons,
    List.map_nil, List.flatten_append, List.flatten_cons, List.flatten_nil]
  simp [List.append_assoc]

lemma closedFrames_facts (flags sid : Nat) (hEH : flagBit flags 2 = false) :
    ∀ (t : HeadersFrameType) (cs : List (List Nat)),
      ∀ fr ∈ closedFrames flags sid t cs,
        fr.1.streamId = sid ∧ fr.1.payloadLen = fr.2.length ∧
        flagBit fr.1.flags 2 = false ∧ fr.2 ∈ cs := by
  intro t cs
  induction cs generalizing t with
  | nil => intro fr hfr; simp [closedFrames] at hfr
  | cons p ps ih =>
    intro fr hfr
    simp only [closedFrames, List.mem_cons] at hfr
    rcases hfr with hfr | hfr
    · subst hfr
      refine ⟨rfl, rfl, ?_, by simp⟩
      cases t with
      | headers => simpa [HeadersFrameType.makeFlags] using hEH
      | continuation => simp [HeadersFrameType.makeFlags, flagBit]
    · obtain ⟨h1, h2, h3, h4⟩ := ih .continuation fr hfr
      exact ⟨h1, h2, h3, List.mem_cons_of_mem _ h4⟩

lemma closedFrames_cont_facts (flags sid : Nat) :
    ∀ (ps : List (List Nat)),
      ∀ fr ∈ closedFrames flags sid .continuation ps,
        fr.1.frameType = CONTINUATION_FRAME_TYPE ∧ flagBit fr.1.flags 0 = false := by
  intro ps
  induction ps with
  | nil => intro fr hfr; simp [closedFrames] at hfr
  | cons p ps ih =>
    intro fr hfr
    simp only [closedFrames, List.mem_cons] at hfr
    rcases hfr with hfr | hfr
    · subst hfr
      exact ⟨rfl, by simp [HeadersFrameType.makeFlags, flagBit]⟩
    · exact ih fr hfr

lemma closedFrames_payloads (flags sid : Nat) :
    ∀ (t : HeadersFrameType) (cs : List (List Nat)),
      (closedFrames flags sid t cs).map (fun fr => fr.2) = cs := by
  intro t cs
  induction cs generalizing t with
  | nil => rfl
  | cons p ps ih =>
    simp only [closedFrames, List.map_cons, ih .continuation]

/-- Claim C2 (confirmed, for positive `max_frame_size` and flags without a
pre-set END_HEADERS, which the source asserts): serializing a
`HeadersMultiFrame` over any sequence of HPACK-encoder sink writes emits
exactly one HEADERS frame followed by zero or more CONTINUATION frames, all
for the given stream; every payload is at most `max_frame_size` bytes with a
matching declared length; END_HEADERS is set on the last frame and on no
other; the first frame keeps the requested flags (in particular END_STREAM
exactly when requested) and no CONTINUATION carries END_STREAM; and the
concatenated header-block fragments equal the concatenated encoder output. -/
theorem c2_headers_multi_frame (initial : List Nat) (chunks : List (List Nat))
    (flags sid max : Nat) (hmax : 0 < max) (hEH : flagBit flags 2 = false) :
    ∃ first rest,
      headersMultiSerializeInto initial chunks flags sid max =
        some (initial ++ renderFrames (first :: rest)) ∧
      first.1.frameType = HEADERS_FRAME_TYPE ∧
      (∀ fr ∈ rest, fr.1.frameType = CONTINUATION_FRAME_TYPE) ∧
      (∀ fr ∈ first :: rest,
        fr.1.streamId = sid ∧ fr.2.length ≤ max ∧ fr.1.payloadLen = fr.2.length) ∧
      flagBit first.1.flags 0 = flagBit flags 0 ∧
      (∀ fr ∈ rest, flagBit fr.1.flags 0 = false) ∧
      (∃ ini lastF, first :: rest = ini ++ [lastF] ∧
        flagBit lastF.1.flags 2 = true ∧ ∀ fr ∈ ini, flagBit fr.1.flags 2 = false) ∧
      ((first :: rest).map (fun fr => fr.2)).flatten = chunks.flatten := by
  have heq := headersMultiSerializeInto_eq initial chunks flags sid max hmax hEH
  unfold headersMultiFrames at heq
  have hflat := splitRun_flatten hmax chunks.flatten
  have hsnd := splitRun_snd_le hmax chunks.flatten
  have hfst := splitRun_fst_len hmax chunks.flatten
  have ht40 : Nat.testBit 4 0 = false := by decide
  have ht42 : Nat.testBit 4 2 = true := by decide
  cases hcs : (splitRun max chunks.flatten).1 with
  | nil =>
    rw [hcs] at heq hflat hfst
    refine ⟨({ payloadLen := (splitRun max chunks.flatten).2.length
             , frameType := HEADERS_FRAME_TYPE
             , flags := flags ||| 4
             , streamId := sid }, (splitRun max chunks.flatten).2), [],
             ?_, rfl, by simp, ?_, ?_, by simp, ?_, ?_⟩
    · simpa [closedFrames, nextType, HeadersFrameType.makeFlags,
        HeadersFrameType.frameType, HEADERS_FRAME_TYPE] using heq
    · intro fr hfr
      simp only [List.mem_singleton, List.not_mem_nil, or_false] at hfr
      subst hfr
      exact ⟨rfl, hsnd, rfl⟩
    · show flagBit (flags ||| 4) 0 = flagBit flags 0
      simp [flagBit, Nat.testBit_or, ht40]
    · refine ⟨[], _, rfl, ?_, by simp⟩
      show flagBit (flags ||| 4) 2 = true
      simp [flagBit, Nat.testBit_or, ht42]
    · simpa using hflat
  | cons p ps =>
    rw [hcs] at heq hflat hfst
    refine ⟨({ payloadLen := p.length
             , frameType := HeadersFrameType.headers.frameType
             , flags := HeadersFrameType.headers.makeFlags flags false
             , streamId := sid }, p),
            closedFrames flags sid .continuation ps ++
              [({ payloadLen := (splitRun max chunks.flatten).2.length
                , frameType := HeadersFrameType.continuation.frameType
                , flags := HeadersFrameType.continuation.makeFlags flags true
                , streamId := sid }, (splitRun max chunks.flatten).2)],
            ?_, rfl, ?_, ?_, ?_, ?_, ?_, ?_⟩
    · rw [heq]
      rfl
    · intro fr hfr
      simp only [List.mem_append, List.mem_singleton, List.not_mem_nil, or_false] at hfr
      rcases hfr with hfr | hfr
      · exact (closedFrames_cont_facts flags sid ps fr hfr).1
      · subst hfr
        rfl
    · intro fr hfr
      simp only [List.mem_cons, List.mem_append, List.mem_singleton, List.not_mem_nil, or_false] at hfr
      rcases hfr with hfr | hfr | hfr
      · subst hfr
        refine ⟨rfl, ?_, rfl⟩
        show p.length ≤ max
        have := hfst p (by simp)
        omega
      · obtain ⟨h1, h2, h3, h4⟩ := closedFrames_facts flags sid hEH .continuation ps fr hfr
        refine ⟨h1, ?_, h2⟩
        have := hfst fr.2 (by simp [h4])
        omega
      · subst hfr
        exact ⟨rfl, hsnd, rfl⟩
    · show flagBit (HeadersFrameType.headers.makeFlags flags false) 0 = flagBit flags 0
      simp [HeadersFrameType.makeFlags]
    · intro fr hfr
      simp only [List.mem_append, List.mem_singleton, List.not_mem_nil, or_false] at hfr
      rcases hfr with hfr | hfr
      · exact (closedFrames_cont_facts flags sid ps fr hfr).2
      · subst hfr
        show flagBit (HeadersFrameType.continuation.makeFlags flags true) 0 = false
        simp [HeadersFrameType.makeFlags, flagBit]
    · refine ⟨({ payloadLen := p.length
               , frameType := HeadersFrameType.headers.frameType
               , flags := HeadersFrameType.headers.makeFlags flags false
               , streamId := sid }, p) :: closedFrames flags sid .continuation ps,
              ({ payloadLen := (splitRun max chunks.flatten).2.length
               , frameType := HeadersFrameType.continuation.frameType
               , flags := HeadersFrameType.continuation.makeFlags flags true
               , streamId := sid }, (splitRun max chunks.flatten).2),
              by rw [List.cons_append], ?_, ?_⟩
      · show flagBit (HeadersFrameType.continuation.makeFlags flags true) 2 = true
        simp [HeadersFrameType.makeFlags, flagBit, ht42]
      · intro fr hfr
        simp only [List.mem_cons] at hfr
        rcases hfr with hfr | hfr
        · subst hfr
          show flagBit (HeadersFrameType.headers.makeFlags flags false) 2 = false
          simpa [HeadersFrameType.makeFlags] using hEH
        · exact (closedFrames_facts flags sid hEH .continuation ps fr hfr).2.2.1
    · set l := (splitRun max chunks.flatten).2 with hl
      simp only [List.map_cons, List.map_append, List.map_nil, List.flatten_cons,
        List.flatten_append, List.flatten_nil]
      rw [closedFrames_payloads flags sid .continuation ps]
      rw [← hflat]
      simp [List.append_assoc]

/-- Witness for C2: the serializer succeeds on a concrete header block of 3
bytes split at max frame size 2. -/
theorem c2_headers_multi_frame_witness :
    (headersMultiSerializeInto [] [[1, 2, 3]] 1 5 2).isSome = true := by
  obtain ⟨first, rest, heq, _⟩ :=
    c2_headers_multi_frame [] [[1, 2, 3]] 1 5 2 (by decide) (by decide)
  rw [heq]
  rfl

/-! Per-stream sync queue (`src/common/stream_queue_sync.rs`) and the
window-managing reader stream (`src/common/stream_from_network.rs`). -/

lemma SQOp.apply_eofReceived (r : StreamQueueSyncReceiver) (op : SQOp)
    (h : r.eofReceived = true) : (op.apply r).eofReceived = true := by
  cases op with
  | push item => exact h
  | closeSender => exact h
  | poll =>
    show (r.poll.2).eofReceived = true
    unfold StreamQueueSyncReceiver.poll
    rw [if_pos h]
    exact h

/-- Claim C8 (corrected): once the receiver has taken a terminal item off the
queue — an `Ok` part with `last = true` or a pushed `Err` — `eof_received` is
latched and every subsequent poll, under any interleaving of further pushes,
sender closure and polls, returns end-of-stream (`Ready(None)`); but the
"unexpected EOF" internal error produced by a closed empty channel does not
latch and repeats on the next poll. -/
theorem c8_sync_queue_terminal (r : StreamQueueSyncReceiver) :
    (∀ part, r.poll.1 = .item part → part.last = true → (r.poll.2).eofReceived = true) ∧
    (∀ e rest, r.queue = .error e :: rest → r.eofReceived = false →
      r.poll = (.err e, { r with queue := rest, eofReceived := true })) ∧
    (r.eofReceived = true →
      ∀ ops : List SQOp, ∀ res ∈ sqRunPolls r ops, res = .eos) := by
  refine ⟨?_, ?_, ?_⟩
  · intro part hpoll hlast
    unfold StreamQueueSyncReceiver.poll at hpoll ⊢
    split at hpoll
    next heof => exact absurd hpoll (by simp)
    next heof =>
      rw [if_neg heof]
      split at hpoll
      next hq =>
        by_cases hsc : r.senderClosed = true
        · rw [if_pos hsc] at hpoll
          exact absurd hpoll (by simp)
        · rw [if_neg hsc] at hpoll
          exact absurd hpoll (by simp)
      next item rest hq =>
        split at hpoll
        next e heq => exact absurd hpoll (by simp)
        next p heq =>
          simp only [SQPoll.item.injEq] at hpoll
          subst hpoll
          simpa using hlast
  · intro e rest hq heof
    unfold StreamQueueSyncReceiver.poll
    rw [if_neg (by rw [heof]; simp), hq]
  · intro heof ops
    induction ops generalizing r with
    | nil => intro res hres; simp [sqRunPolls] at hres
    | cons op ops ih =>
      intro res hres
      cases op with
      | poll =>
        have hpoll : r.poll = (.eos, r) := by
          unfold StreamQueueSyncReceiver.poll
          rw [if_pos heof]
        simp only [sqRunPolls, hpoll, List.mem_cons] at hres
        rcases hres with hres | hres
        · exact hres
        · exact ih r heof res hres
      | push item =>
        simp only [sqRunPolls] at hres
        exact ih _ (SQOp.apply_eofReceived r (.push item) heof) res hres
      | closeSender =>
        simp only [sqRunPolls] at hres
        exact ih _ (SQOp.apply_eofReceived r .closeSender heof) res hres

/-- Witness for C8: a receiver that just took an error latches and then
reports end-of-stream under further pushes and polls. -/
theorem c8_sync_queue_terminal_witness :
    ∀ res ∈ sqRunPolls
      { queue := [], senderClosed := false, eofReceived := true }
      [.push (.ok { content := .data [1], last := false }), .poll, .poll],
      res = SQPoll.eos :=
  (c8_sync_queue_terminal
    { queue := [], senderClosed := false, eofReceived := true }).2.2 rfl
    [.push (.ok { content := .data [1], last := false }), .poll, .poll]

/-- Claim C8 counterexample: with the sender dropped and no terminal item
pushed, the first poll returns the "unexpected EOF" internal error and the
next poll repeats the very same error rather than returning end-of-stream. -/
theorem c8_error_repeats_counterexample :
    (StreamQueueSyncReceiver.poll
        { queue := [], senderClosed := true, eofReceived := false }).1 =
      .err (.internalError "internal error: unexpected EOF") ∧
    (StreamQueueSyncReceiver.poll
        (StreamQueueSyncReceiver.poll
          { queue := [], senderClosed := true, eofReceived := false }).2).1 =
      .err (.internalError "internal error: unexpected EOF") ∧
    (StreamQueueSyncReceiver.poll
        (StreamQueueSyncReceiver.poll
          { queue := [], senderClosed := true, eofReceived := false }).2).1 ≠
      .eos := by
  refine ⟨rfl, rfl, ?_⟩
  decide

/-- Claim C4 (amended): when `StreamFromNetwork::poll` delivers a data chunk
of `n` bytes, it subtracts `n` from the stream's in-window credit, and
exactly when the resulting credit is below half the default initial window
(32767) it emits a window increase of the full default initial window
(65535), leaving the credit at (old − n) + 65535 — an increase by the
initial window, not a restoration to it. -/
theorem c4_stream_from_network_window (s : StreamFromNetwork)
    (part : DataOrHeadersWithFlag) (b : List Nat)
    (hrx : s.rx.poll.1 = .item part) (hb : part.content = .data b) :
    s.poll.1 = .item part ∧
    (s.poll.2).increaseInWindow.inWindowSize =
      s.increaseInWindow.inWindowSize - b.length +
        (if s.increaseInWindow.inWindowSize - b.length < (32767 : Int)
         then (65535 : Int) else 0) ∧
    (s.poll.2).increaseInWindow.emitted =
      s.increaseInWindow.emitted ++
        (if s.increaseInWindow.inWindowSize - b.length < (32767 : Int)
         then [65535] else []) := by
  unfold StreamFromNetwork.poll
  split
  next rx' heq => rw [heq] at hrx; exact absurd hrx (by simp)
  next e rx' heq => rw [heq] at hrx; exact absurd hrx (by simp)
  next rx' heq => rw [heq] at hrx; exact absurd hrx (by simp)
  next part2 rx' heq =>
    rw [heq] at hrx
    simp only [SQPoll.item.injEq] at hrx
    subst hrx
    rw [hb]
    dsimp only
    by_cases hedge : s.increaseInWindow.inWindowSize - b.length <
        ((DEFAULT_INITIAL_WINDOW_SIZE / 2 : Nat) : Int)
    · rw [if_pos (by simpa [IncreaseInWindow.dataFrameProcessed] using hedge)]
      refine ⟨rfl, ?_, ?_⟩ <;>
        simp only [IncreaseInWindow.increaseWindow, IncreaseInWindow.dataFrameProcessed] <;>
        rw [if_pos (by exact_mod_cast hedge)] <;>
        norm_num [DEFAULT_INITIAL_WINDOW_SIZE]
    · rw [if_neg (by simpa [IncreaseInWindow.dataFrameProcessed] using hedge)]
      refine ⟨rfl, ?_, ?_⟩ <;>
        simp only [IncreaseInWindow.increaseWindow, IncreaseInWindow.dataFrameProcessed] <;>
        rw [if_neg (by exact_mod_cast hedge)] <;>
        simp

/-- Witness for C4: a stream with 100 bytes of credit delivering a 3-byte
chunk drops below the refill edge and gains a 65535-byte window increase. -/
theorem c4_stream_from_network_window_witness :
    (StreamFromNetwork.poll
      { rx := { queue := [.ok { content := .data [7, 8, 9], last := false }]
              , senderClosed := false, eofReceived := false }
      , increaseInWindow := { streamId := 1, inWindowSize := 100, emitted := [] }
      }).2.increaseInWindow.inWindowSize = 100 - 3 + 65535 :=
  by
    have h := c4_stream_from_network_window
      { rx := { queue := [.ok { content := .data [7, 8, 9], last := false }]
              , senderClosed := false, eofReceived := false }
      , increaseInWindow := { streamId := 1, inWindowSize := 100, emitted := [] } }
      { content := .data [7, 8, 9], last := false } [7, 8, 9] (by decide) rfl
    rw [h.2.1]
    decide

/-- Claim C4 counterexample: with credit 100 a 3-byte delivery triggers the
window increase, but the resulting credit is 65632, not the initial window
65535 — the increase adds the initial window instead of restoring to it. -/
theorem c4_not_restored_counterexample :
    (StreamFromNetwork.poll
      { rx := { queue := [.ok { content := .data [7, 8, 9], last := false }]
              , senderClosed := false, eofReceived := false }
      , increaseInWindow := { streamId := 1, inWindowSize := 100, emitted := [] }
      }).2.increaseInWindow.emitted = [65535] ∧
    (StreamFromNetwork.poll
      { rx := { queue := [.ok { content := .data [7, 8, 9], last := false }]
              , senderClosed := false, eofReceived := false }
      , increaseInWindow := { streamId := 1, inWindowSize := 100, emitted := [] }
      }).2.increaseInWindow.inWindowSize ≠ (65535 : Int) := by
  refine ⟨by decide, by decide⟩

/-! Writer side of the connection (`src/common/conn_write.rs`). The stream
record, stream map and queued-write buffer live in modules outside `src/`
and are modelled from the spec; the `Conn` methods below are embedded from
`conn_write.rs` itself. -/

/-- Claim C10 (confirmed): enqueueing a part for a stream id absent from the
map returns Ok; a data part only increases `pump_out_window_size` by the data
length, a headers part changes nothing — all other connection state is
untouched (the result is the input record with only that field replaced). -/
theorem c10_enqueue_absent_stream (c : WConn) (streamId : Nat)
    (part : DataOrHeadersWithFlag)
    (habsent : lookupStream c.streams streamId = none) :
    c.processStreamEnqueue streamId part =
      .ok { c with pumpOutWindowSize := c.pumpOutWindowSize +
        (match part.content with
         | .data d => d.length
         | .headers _ => 0) } := by
  unfold WConn.processStreamEnqueue
  rw [habsent]
  cases part with
  | mk content last =>
    cases content with
    | data d => rfl
    | headers hs => rfl

/-- Witness for C10: a data part of 5 bytes enqueued for the missing stream 3
adds exactly 5 to the pump-out window of a concrete connection. -/
theorem c10_enqueue_absent_stream_witness :
    WConn.processStreamEnqueue
      { peerMaxFrameSize := 16384, outWindowSize := 100, pumpOutWindowSize := 7
      , encoder := fun _ => [], streams := [], out := [] } 3
      { content := .data [1, 2, 3, 4, 5], last := false } =
      .ok { peerMaxFrameSize := 16384, outWindowSize := 100, pumpOutWindowSize := 12
          , encoder := fun _ => [], streams := [], out := [] } :=
  c10_enqueue_absent_stream
    { peerMaxFrameSize := 16384, outWindowSize := 100, pumpOutWindowSize := 7
    , encoder := fun _ => [], streams := [], out := [] } 3
    { content := .data [1, 2, 3, 4, 5], last := false } rfl

lemma DataFrame.serializeInto_length_not_padded (f : DataFrame)
    (h : f.isPadded = false) : f.serializeInto.length = 9 + f.data.length := by
  unfold DataFrame.serializeInto
  rw [h]
  simp [packHeader_length]

lemma dataFlagByte_not_padded (cond : Prop) [Decidable cond] :
    flagBit (if cond then 1 else 0) 3 = false := by
  by_cases hc : cond
  · rw [if_pos hc]; decide
  · rw [if_neg hc]; decide

lemma writePartDataLoop_bytes (maxFrameSize streamId : Nat) (endStream : Bool)
    (hmax : 0 < maxFrameSize) :
    ∀ fuel rem,
      (((writePartDataLoop maxFrameSize streamId endStream fuel rem).map
          DataFrame.serializeInto).flatten).length ≤ 10 * rem.length := by
  intro fuel
  induction fuel with
  | zero => intro rem; simp [writePartDataLoop]
  | succ fuel ih =>
    intro rem
    match rem with
    | [] => simp [writePartDataLoop]
    | a :: rest =>
      rw [writePartDataLoop]
      simp only [List.map_cons, List.flatten_cons, List.length_append]
      have hframe : (DataFrame.serializeInto
          { flags := if (a :: rest).length ≤ maxFrameSize ∧ endStream = true then 1 else 0
          , streamId := streamId
          , data := (a :: rest).take maxFrameSize
          , paddingLen := 0 }).length = 9 + ((a :: rest).take maxFrameSize).length := by
        rw [DataFrame.serializeInto_length_not_padded]
        exact dataFlagByte_not_padded _
      rw [hframe]
      have hrec := ih ((a :: rest).drop maxFrameSize)
      rw [List.length_drop] at hrec
      rw [List.length_take]
      simp only [List.length_cons] at hrec ⊢
      omega

lemma writePartData_bytes (streamId : Nat) (d : List Nat) (endStream : Bool)
    (maxFrameSize : Nat) (hmax : 0 < maxFrameSize) :
    (((writePartData streamId d endStream maxFrameSize).map
        DataFrame.serializeInto).flatten).length ≤ 10 * d.length + 9 := by
  unfold writePartData
  by_cases hc : endStream = true ∧ d.length = 0
  · rw [if_pos hc]
    have h13 : Nat.testBit 1 3 = false := by decide
    simp [DataFrame.serializeInto, DataFrame.isPadded, DataFrame.getHeader,
      flagBit, packHeader_length, h13]
  · rw [if_neg hc]
    have := writePartDataLoop_bytes maxFrameSize streamId endStream hmax
      (d.length + 1) d
    omega

lemma renderFrames_length (frames : List (FrameHeader × List Nat)) :
    (renderFrames frames).length = (frames.map (fun p => 9 + p.2.length)).sum := by
  induction frames with
  | nil => rfl
  | cons f fs ih =>
    simp only [renderFrames, List.map_cons, List.flatten_cons, List.length_append,
      packHeader_length, List.sum_cons] at ih ⊢
    omega

lemma closedFrames_frame_sizes (flags sid : Nat) :
    ∀ (t : HeadersFrameType) (cs : List (List Nat)),
      ((closedFrames flags sid t cs).map (fun p => 9 + p.2.length)).sum =
        9 * cs.length + cs.flatten.length := by
  intro t cs
  induction cs generalizing t with
  | nil => rfl
  | cons p ps ih =>
    simp only [closedFrames, List.map_cons, List.sum_cons, ih .continuation,
      List.length_cons, List.flatten_cons, List.length_append]
    ring

lemma pieces_count_le_flatten (cs : List (List Nat)) (hne : ∀ p ∈ cs, p ≠ []) :
    cs.length ≤ cs.flatten.length := by
  induction cs with
  | nil => simp
  | cons p ps ih =>
    simp only [List.flatten_cons, List.length_append, List.length_cons]
    have hp : p ≠ [] := hne p (by simp)
    have hlen : 1 ≤ p.length := by
      cases p with
      | nil => exact absurd rfl hp
      | cons _ _ => simp
    have := ih (fun q hq => hne q (by simp [hq]))
    omega

lemma headersMultiFrames_render_bytes (flags sid maxFrameSize : Nat)
    (b : List Nat) (hmax : 0 < maxFrameSize) :
    (renderFrames (headersMultiFrames flags sid maxFrameSize b)).length ≤
      10 * b.length + 9 := by
  unfold headersMultiFrames
  rw [renderFrames_length]
  simp only [List.map_append, List.map_cons, List.map_nil, List.sum_append,
    List.sum_cons, List.sum_nil]
  rw [closedFrames_frame_sizes]
  have hflat := congrArg List.length (splitRun_flatten hmax b)
  rw [List.length_append] at hflat
  have hcnt : (splitRun maxFrameSize b).1.length ≤
      (splitRun maxFrameSize b).1.flatten.length := by
    apply pieces_count_le_flatten
    intro p hp
    have := splitRun_fst_len hmax b p hp
    intro hcon
    rw [hcon] at this
    simp at this
    omega
  omega

lemma writePart_spec (c : WConn) (sid : Nat) (cmd : HttpStreamCommand)
    (c' : WConn) (hmax : 0 < c.peerMaxFrameSize)
    (h : c.writePart sid cmd = some c') :
    ∃ b, c' = { c with out := c.out ++ b } ∧
      b.length ≤ cmdEmitBound c.encoder cmd := by
  cases cmd with
  | data d es =>
    refine ⟨_, by simpa [WConn.writePart] using h.symm, ?_⟩
    exact writePartData_bytes sid d es c.peerMaxFrameSize hmax
  | headers hs es =>
    have hEH : flagBit (if es = true then 1 else 0) 2 = false := by
      by_cases hc : es = true
      · rw [if_pos hc]; decide
      · rw [if_neg hc]; decide
    have heq := headersMultiSerializeInto_eq c.out (c.encoder hs)
      (if es = true then 1 else 0) sid c.peerMaxFrameSize hmax hEH
    have hw : c.writePart sid (.headers hs es) =
        (headersMultiSerializeInto c.out (c.encoder hs) (if es = true then 1 else 0)
          sid c.peerMaxFrameSize).map (fun b => { c with out := b }) := rfl
    rw [hw, heq] at h
    simp only [Option.map_some', Option.some.injEq] at h
    refine ⟨renderFrames (headersMultiFrames (if es = true then 1 else 0) sid
      c.peerMaxFrameSize ((c.encoder hs).flatten)), h.symm, ?_⟩
    exact headersMultiFrames_render_bytes _ sid c.peerMaxFrameSize _ hmax
  | rst code =>
    refine ⟨_, by simpa [WConn.writePart] using h.symm, ?_⟩
    simp [RstStreamFrame.serializeInto, packHeader_length, packU32, cmdEmitBound]

lemma popOutg_bounds (connWindow : Nat) (s : WStream)
    (cmd : HttpStreamCommand) (s' : WStream) (n : Nat) (cont : Bool)
    (h : popOutg connWindow s = some (cmd, s', n, cont))
    (enc : HeadersList → List (List Nat)) (M : Nat)
    (hb : ∀ p ∈ s.outgoing, partBound enc p ≤ M) :
    cmdEmitBound enc cmd ≤ M ∧ ∀ p ∈ s'.outgoing, partBound enc p ≤ M := by
  unfold popOutg at h
  split at h
  next hq => exact absurd h (by simp)
  next part rest hq =>
    have hbhead : partBound enc part ≤ M := hb part (by rw [hq]; simp)
    have hbrest : ∀ p ∈ rest, partBound enc p ≤ M := by
      intro p hp
      exact hb p (by rw [hq]; simp [hp])
    split at h
    next hs hc =>
      simp only [Option.some.injEq, Prod.mk.injEq] at h
      obtain ⟨h1, h2, _, _⟩ := h
      subst h1 h2
      refine ⟨?_, hbrest⟩
      simpa [cmdEmitBound, partBound, hc] using hbhead
    next d hc =>
      dsimp only at h
      by_cases hfit : d.length ≤ min s.outWindow connWindow
      · rw [if_pos hfit] at h
        simp only [Option.some.injEq, Prod.mk.injEq] at h
        obtain ⟨h1, h2, _, _⟩ := h
        subst h1 h2
        refine ⟨?_, hbrest⟩
        simpa [cmdEmitBound, partBound, hc] using hbhead
      · rw [if_neg hfit] at h
        by_cases hw : min s.outWindow connWindow = 0
        · rw [if_pos hw] at h
          exact absurd h (by simp)
        · rw [if_neg hw] at h
          simp only [Option.some.injEq, Prod.mk.injEq] at h
          obtain ⟨h1, h2, _, _⟩ := h
          subst h1 h2
          have hdb : 10 * d.length + 9 ≤ M := by
            have hh := hbhead
            unfold partBound at hh
            rw [hc] at hh
            simpa using hh
          constructor
          · show 10 * (d.take (min s.outWindow connWindow)).length + 9 ≤ M
            rw [List.length_take]
            omega
          · intro p hp
            simp only [List.mem_cons] at hp
            rcases hp with hp | hp
            · subst hp
              show 10 * (d.drop (min s.outWindow connWindow)).length + 9 ≤ M
              rw [List.length_drop]
              omega
            · exact hbrest p hp

lemma lookupStream_mem (streams : List (Nat × WStream)) (sid : Nat) (s : WStream)
    (h : lookupStream streams sid = some s) : (sid, s) ∈ streams := by
  unfold lookupStream at h
  cases hf : streams.find? (fun e => e.1 = sid) with
  | none => rw [hf] at h; simp at h
  | some e =>
    rw [hf] at h
    simp only [Option.map_some', Option.some.injEq] at h
    have hmem := List.mem_of_find?_eq_some hf
    have hpred := List.find?_some hf
    simp only [decide_eq_true_eq] at hpred
    have : e = (sid, s) := by
      cases e with
      | mk a b =>
        simp only at hpred h
        rw [hpred, h]
    rw [← this]
    exact hmem

lemma mem_updateStream (streams : List (Nat × WStream)) (sid : Nat) (s' : WStream) :
    ∀ e ∈ updateStream streams sid s', e = (sid, s') ∨ e ∈ streams := by
  intro e he
  simp only [updateStream, List.mem_map] at he
  obtain ⟨orig, horig, heq⟩ := he
  by_cases hc : orig.1 = sid
  · rw [if_pos hc] at heq
    exact Or.inl heq.symm
  · rw [if_neg hc] at heq
    exact Or.inr (heq ▸ horig)

lemma mem_removeStream (streams : List (Nat × WStream)) (sid : Nat) :
    ∀ e ∈ removeStream streams sid, e ∈ streams := by
  intro e he
  exact List.mem_of_mem_filter he

lemma popOutgForStream_spec (c : WConn) (sid : Nat) (cmd : HttpStreamCommand)
    (c1 : WConn) (cont : Bool)
    (h : c.popOutgForStream sid = some (cmd, c1, cont)) (M : Nat)
    (hb : connPartsBounded c M) :
    cmdEmitBound c.encoder cmd ≤ M ∧ connPartsBounded c1 M ∧
    c1.out = c.out ∧ c1.encoder = c.encoder ∧
    c1.peerMaxFrameSize = c.peerMaxFrameSize := by
  unfold WConn.popOutgForStream at h
  split at h
  next hq => exact absurd h (by simp)
  next s hq =>
    split at h
    next hp => exact absurd h (by simp)
    next cmd2 s' n cont2 hp =>
      simp only [Option.some.injEq, Prod.mk.injEq] at h
      obtain ⟨h1, h2, h3⟩ := h
      subst h1 h3 h2
      have hsb : ∀ p ∈ s.outgoing, partBound c.encoder p ≤ M :=
        hb (sid, s) (lookupStream_mem c.streams sid s hq)
      obtain ⟨hcmd, hs'⟩ := popOutg_bounds c.outWindowSize s cmd2 s' n cont2 hp c.encoder M hsb
      refine ⟨hcmd, ?_, rfl, rfl, rfl⟩
      intro e he p hpp
      dsimp only at he ⊢
      by_cases hcont : cont2 = true
      · rw [if_pos hcont] at he
        rcases mem_updateStream c.streams sid s' e he with he2 | he2
        · subst he2
          exact hs' p hpp
        · exact hb e he2 p hpp
      · rw [if_neg hcont] at he
        exact hb e (mem_removeStream c.streams sid e he) p hpp

lemma hasWriteBufferCapacity_iff (c : WConn) :
    c.hasWriteBufferCapacity = true ↔ c.out.length < 0x8000 := by
  unfold WConn.hasWriteBufferCapacity
  exact decide_eq_true_iff

lemma bufferOutgStreamLoop_inv (sid M : Nat) :
    ∀ fuel (c : WConn) (upd : Bool) (c' : WConn) (upd' early : Bool),
      0 < c.peerMaxFrameSize → connPartsBounded c M →
      c.out.length < 0x8000 + M →
      WConn.bufferOutgStreamLoop fuel c sid upd = some (c', upd', early) →
      c'.out.length < 0x8000 + M ∧ connPartsBounded c' M ∧
      c'.peerMaxFrameSize = c.peerMaxFrameSize := by
  intro fuel
  induction fuel with
  | zero =>
    intro c upd c' upd' early _ _ _ hres
    exact absurd hres (by simp [WConn.bufferOutgStreamLoop])
  | succ fuel ih =>
    intro c upd c' upd' early hmax hb hout hres
    rw [WConn.bufferOutgStreamLoop] at hres
    by_cases hcap : c.hasWriteBufferCapacity = true
    · rw [if_neg (by simp [hcap])] at hres
      split at hres
      next hp =>
        simp only [Option.some.injEq, Prod.mk.injEq] at hres
        obtain ⟨h1, _, _⟩ := hres
        subst h1
        exact ⟨hout, hb, rfl⟩
      next cmd c1 cont hp =>
        split at hres
        next hw => exact absurd hres (by simp)
        next c2 hw =>
          obtain ⟨hcmd, hb1, hout1, henc1, hpm1⟩ :=
            popOutgForStream_spec c sid cmd c1 cont hp M hb
          obtain ⟨b, hc2, hblen⟩ :=
            writePart_spec c1 sid cmd c2 (by rw [hpm1]; exact hmax) hw
          have hout2 : c2.out.length < 0x8000 + M := by
            rw [hc2]
            simp only [List.length_append]
            rw [hout1]
            have hclt : c.out.length < 0x8000 := (hasWriteBufferCapacity_iff c).mp hcap
            rw [henc1] at hblen
            omega
          have hb2 : connPartsBounded c2 M := by
            intro e he p hpp
            rw [hc2] at he ⊢
            exact henc1 ▸ hb1 e he p hpp
          have hpm2 : c2.peerMaxFrameSize = c.peerMaxFrameSize := by
            rw [hc2]
            exact hpm1
          by_cases hcont : cont = true
          · rw [if_pos hcont] at hres
            obtain ⟨ho, hbf, hpf⟩ := ih c2 true c' upd' early
              (by rw [hpm2]; exact hmax) hb2 hout2 hres
            exact ⟨ho, hbf, by rw [hpf, hpm2]⟩
          · rw [if_neg hcont] at hres
            simp only [Option.some.injEq, Prod.mk.injEq] at hres
            obtain ⟨h1, _, _⟩ := hres
            subst h1
            exact ⟨hout2, hb2, hpm2⟩
    · rw [if_pos (by simp [hcap])] at hres
      simp only [Option.some.injEq, Prod.mk.injEq] at hres
      obtain ⟨h1, _, _⟩ := hres
      subst h1
      exact ⟨hout, hb, rfl⟩

lemma bufferOutgStreams_inv (M : Nat) :
    ∀ (sids : List Nat) (c : WConn) (upd : Bool) (c' : WConn) (upd' : Bool),
      0 < c.peerMaxFrameSize → connPartsBounded c M →
      c.out.length < 0x8000 + M →
      WConn.bufferOutgStreams sids c upd = some (c', upd') →
      c'.out.length < 0x8000 + M := by
  intro sids
  induction sids with
  | nil =>
    intro c upd c' upd' _ _ hout hres
    simp only [WConn.bufferOutgStreams, Option.some.injEq, Prod.mk.injEq] at hres
    obtain ⟨h1, _⟩ := hres
    subst h1
    exact hout
  | cons sid sids ih =>
    intro c upd c' upd' hmax hb hout hres
    rw [WConn.bufferOutgStreams] at hres
    split at hres
    next hl => exact absurd hres (by simp)
    next c1 upd1 early hl =>
      obtain ⟨ho1, hb1, hpm1⟩ :=
        bufferOutgStreamLoop_inv sid M (streamFuelOf c sid) c upd c1 upd1 early
          hmax hb hout hl
      by_cases hearly : early = true
      · rw [if_pos hearly] at hres
        simp only [Option.some.injEq, Prod.mk.injEq] at hres
        obtain ⟨h1, _⟩ := hres
        subst h1
        exact ho1
      · rw [if_neg hearly] at hres
        exact ih c1 upd1 c' upd' (by rw [hpm1]; exact hmax) hb1 ho1 hres

/-- Claim C3 (amended): after a buffering pass that returns, the queued
outbound byte count is below the watermark 0x8000 plus the serialized size
bound `M` of a single queued part — the pass checks the watermark before
queueing each part, so it can overshoot by at most the last part queued —
or the pass left the connection untouched; and when the queued count is
already at or above the watermark on entry, the pass drains nothing at
all. -/
theorem c3_write_watermark (c : WConn) (M : Nat)
    (hmax : 0 < c.peerMaxFrameSize) (hb : connPartsBounded c M)
    (c' : WConn) (upd : Bool) (hres : c.bufferOutgConn = some (c', upd)) :
    (c'.out.length < 0x8000 + M ∨ (c' = c ∧ upd = false)) ∧
    (¬ c.out.length < 0x8000 → c' = c ∧ upd = false) := by
  unfold WConn.bufferOutgConn at hres
  by_cases hcap : c.hasWriteBufferCapacity = true
  · rw [if_neg (by simp [hcap])] at hres
    have hout : c.out.length < 0x8000 + M := by
      have := (hasWriteBufferCapacity_iff c).mp hcap
      omega
    refine ⟨Or.inl
      (bufferOutgStreams_inv M c.writableStreamIds c false c' upd hmax hb hout hres), ?_⟩
    intro hcon
    exact absurd ((hasWriteBufferCapacity_iff c).mp hcap) hcon
  · rw [if_pos (by simp [hcap])] at hres
    simp only [Option.some.injEq, Prod.mk.injEq] at hres
    obtain ⟨h1, h2⟩ := hres
    exact ⟨Or.inr ⟨h1.symm, h2.symm⟩, fun _ => ⟨h1.symm, h2.symm⟩⟩

set_option maxRecDepth 10000 in
lemma c3cex_capacity_entry : c3cexConn.hasWriteBufferCapacity = true := by
  unfold WConn.hasWriteBufferCapacity c3cexConn
  show decide ((List.replicate 32767 (0 : Nat)).length < 0x8000) = true
  rw [List.length_replicate]
  rfl

set_option maxRecDepth 10000 in
lemma c3cex_pop : c3cexConn.popOutgForStream 1 =
    some (.data (List.replicate 100 7) false, c3cexPopped, true) := by
  unfold c3cexConn c3cexPopped
  rfl

set_option maxRecDepth 10000 in
lemma c3cex_write : c3cexPopped.writePart 1 (.data (List.replicate 100 7) false) =
    some c3cexAfter := by
  unfold c3cexPopped c3cexAfter
  rfl

set_option maxRecDepth 10000 in
lemma c3cex_frame_bytes : (((writePartData 1 (List.replicate 100 7) false 16384).map
    DataFrame.serializeInto).flatten).length = 109 := by decide

lemma c3cex_out_length : c3cexAfter.out.length = 32876 := by
  unfold c3cexAfter
  show (List.replicate 32767 (0 : Nat) ++ _).length = 32876
  rw [List.length_append, List.length_replicate, c3cex_frame_bytes]

lemma c3cex_capacity_after : c3cexAfter.hasWriteBufferCapacity = false := by
  unfold WConn.hasWriteBufferCapacity
  rw [c3cex_out_length]
  rfl

set_option maxRecDepth 10000 in
lemma c3cex_entry : c3cexConn.bufferOutgConn = WConn.bufferOutgStreams [1] c3cexConn false := by
  unfold WConn.bufferOutgConn
  rw [if_neg (by rw [c3cex_capacity_entry]; simp)]
  have hwr : c3cexConn.writableStreamIds = [1] := by unfold c3cexConn; rfl
  rw [hwr]

set_option maxRecDepth 10000 in
lemma c3cex_loop_step : WConn.bufferOutgStreamLoop 102 c3cexConn 1 false =
    WConn.bufferOutgStreamLoop 101 c3cexAfter 1 true := by
  rw [show (102 : Nat) = 101 + 1 from rfl, WConn.bufferOutgStreamLoop]
  rw [if_neg (by rw [c3cex_capacity_entry]; simp), c3cex_pop]
  dsimp only
  rw [c3cex_write]
  dsimp only
  rw [if_pos rfl]

set_option maxRecDepth 10000 in
lemma c3cex_loop_stop : WConn.bufferOutgStreamLoop 101 c3cexAfter 1 true =
    some (c3cexAfter, true, true) := by
  rw [show (101 : Nat) = 100 + 1 from rfl, WConn.bufferOutgStreamLoop]
  rw [if_pos (by rw [c3cex_capacity_after]; simp)]

set_option maxRecDepth 10000 in
lemma c3cex_streams : WConn.bufferOutgStreams [1] c3cexConn false = some (c3cexAfter, true) := by
  have hfuel : streamFuelOf c3cexConn 1 = 102 := by unfold c3cexConn; rfl
  rw [WConn.bufferOutgStreams, hfuel, c3cex_loop_step, c3cex_loop_stop]
  rfl

set_option maxRecDepth 10000 in
lemma c3cex_run : c3cexConn.bufferOutgConn = some (c3cexAfter, true) := by
  rw [c3cex_entry, c3cex_streams]

set_option maxRecDepth 10000 in
theorem c3_watermark_counterexample :
    (WConn.bufferOutgConn
      { peerMaxFrameSize := 16384, outWindowSize := 100, pumpOutWindowSize := 0
      , encoder := fun _ => []
      , streams := [(1, { outgoing := [{ content := .data (List.replicate 100 7)
                                       , last := false }]
                        , outWindow := 100 })]
      , out := List.replicate 32767 0 }).map
        (fun r => (decide (r.1.out.length ≤ 0x8000), r.2)) =
      some (false, true) := by
  have h0 : ({ peerMaxFrameSize := 16384, outWindowSize := 100
             , pumpOutWindowSize := 0
             , encoder := fun _ => []
             , streams := [(1, { outgoing := [{ content := .data (List.replicate 100 7)
                                              , last := false }]
                               , outWindow := 100 })]
             , out := List.replicate 32767 0 } : WConn) = c3cexConn := rfl
  rw [h0, c3cex_run, Option.map_some']
  show some (decide (c3cexAfter.out.length ≤ 0x8000), true) = some (false, true)
  rw [c3cex_out_length]
  rfl

/-- Witness for the watermark theorem: a connection with an empty write
buffer and one queued 5-byte DATA part finishes the pass with 14 queued
bytes, under the watermark plus the per-part bound 59. -/
theorem c3_write_watermark_witness :
    (0 : Nat) <
      ({ peerMaxFrameSize := 16384, outWindowSize := 5, pumpOutWindowSize := 0
       , encoder := fun _ => []
       , streams := [(1, { outgoing := [{ content := .data [1, 2, 3, 4, 5]
                                        , last := true }]
                         , outWindow := 5 })]
       , out := [] } : WConn).peerMaxFrameSize ∧
    connPartsBounded
      { peerMaxFrameSize := 16384, outWindowSize := 5, pumpOutWindowSize := 0
      , encoder := fun _ => []
      , streams := [(1, { outgoing := [{ content := .data [1, 2, 3, 4, 5]
                                       , last := true }]
                        , outWindow := 5 })]
      , out := [] } 59 ∧
    ((({ peerMaxFrameSize := 16384, outWindowSize := 0, pumpOutWindowSize := 0
       , encoder := fun _ => []
       , streams := []
       , out := [0, 0, 5, 0, 1, 0, 0, 0, 1, 1, 2, 3, 4, 5] } : WConn).out.length <
         0x8000 + 59 ∨
      (({ peerMaxFrameSize := 16384, outWindowSize := 0, pumpOutWindowSize := 0
        , encoder := fun _ => []
        , streams := []
        , out := [0, 0, 5, 0, 1, 0, 0, 0, 1, 1, 2, 3, 4, 5] } : WConn) =
        { peerMaxFrameSize := 16384, outWindowSize := 5, pumpOutWindowSize := 0
        , encoder := fun _ => []
        , streams := [(1, { outgoing := [{ content := .data [1, 2, 3, 4, 5]
                                         , last := true }]
                          , outWindow := 5 })]
        , out := [] } ∧ true = false)) ∧
     (¬ ({ peerMaxFrameSize := 16384, outWindowSize := 5, pumpOutWindowSize := 0
         , encoder := fun _ => []
         , streams := [(1, { outgoing := [{ content := .data [1, 2, 3, 4, 5]
                                          , last := true }]
                           , outWindow := 5 })]
         , out := [] } : WConn).out.length < 0x8000 →
      ({ peerMaxFrameSize := 16384, outWindowSize := 0, pumpOutWindowSize := 0
       , encoder := fun _ => []
       , streams := []
       , out := [0, 0, 5, 0, 1, 0, 0, 0, 1, 1, 2, 3, 4, 5] } : WConn) =
        { peerMaxFrameSize := 16384, outWindowSize := 5, pumpOutWindowSize := 0
        , encoder := fun _ => []
        , streams := [(1, { outgoing := [{ content := .data [1, 2, 3, 4, 5]
                                         , last := true }]
                          , outWindow := 5 })]
        , out := [] } ∧ true = false)) :=
  ⟨by decide,
   by unfold connPartsBounded; decide,
   c3_write_watermark
     { peerMaxFrameSize := 16384, outWindowSize := 5, pumpOutWindowSize := 0
     , encoder := fun _ => []
     , streams := [(1, { outgoing := [{ content := .data [1, 2, 3, 4, 5]
                                      , last := true }]
                       , outWindow := 5 })]
     , out := [] }
     59 (by decide) (by unfold connPartsBounded; decide)
     { peerMaxFrameSize := 16384, outWindowSize := 0, pumpOutWindowSize := 0
     , encoder := fun _ => []
     , streams := []
     , out := [0, 0, 5, 0, 1, 0, 0, 0, 1, 1, 2, 3, 4, 5] }
     true rfl⟩

/-- C6: on the client, a HEADERS frame for a stream in stage
`AfterInitialHeaders` that carries END_STREAM and passes trailing-headers
validation moves the stage to `AfterTrailingHeaders` and delivers the
headers as trailers to the attached handler; without END_STREAM the engine
sends RST_STREAM with PROTOCOL_ERROR for the stream and delivers nothing.
Delivery also requires the headers to validate (no pseudo-headers in
trailers) and a handler to be attached. -/
theorem c6_client_second_headers (c : CConn) (sid : Nat) (st : CStream)
    (endStream : Bool) (hs : HeadersList)
    (hst : lookupCStream c.streams sid = some st)
    (hstage : st.inMessageStage = .afterInitialHeaders)
    (hvalid : endStream = true → validateResponseHeaders .trailing hs = true) :
    c.processHeaders sid endStream hs =
      (if endStream then
        .ok ({ c with streams := updateCStream c.streams sid ({ st with
                   inMessageStage := .afterTrailingHeaders
                 , inRemContentLength := (match headersContentLength hs with
                     | some n => some n
                     | none => st.inRemContentLength) }) },
             (if st.peerTx then [.deliveredTrailers sid hs] else []), true)
      else
        .ok (c, [.sentRst sid PROTOCOL_ERROR], false)) := by
  unfold CConn.processHeaders
  rw [hst]
  dsimp only
  rw [show stagePlace st.inMessageStage = some HeadersPlace.trailing from by
    rw [hstage]
    rfl]
  dsimp only
  cases endStream with
  | false =>
    cases hval : validateResponseHeaders HeadersPlace.trailing hs <;>
      simp [hval]
  | true =>
    have hv := hvalid rfl
    cases hcl : headersContentLength hs <;> cases hpt : st.peerTx <;>
      simp [hv, hcl, hpt]

/-- Witness for C6: a valid one-entry trailer block with END_STREAM on
stream 1 in stage `AfterInitialHeaders` with a handler attached is
delivered as trailers and the stage advances. -/
theorem c6_client_second_headers_witness :
    lookupCStream
        [(1, { inMessageStage := .afterInitialHeaders
             , inRemContentLength := none, peerTx := true })] 1 =
      some { inMessageStage := .afterInitialHeaders
           , inRemContentLength := none, peerTx := true } ∧
    ({ inMessageStage := .afterInitialHeaders
     , inRemContentLength := none, peerTx := true } : CStream).inMessageStage =
      .afterInitialHeaders ∧
    (true = true → validateResponseHeaders .trailing [([103], [48])] = true) ∧
    CConn.processHeaders
        { streams := [(1, { inMessageStage := .afterInitialHeaders
                          , inRemContentLength := none, peerTx := true })] }
        1 true [([103], [48])] =
      (if true then
        .ok ({ streams := updateCStream
                 [(1, { inMessageStage := .afterInitialHeaders
                      , inRemContentLength := none, peerTx := true })] 1
                 ({ inMessageStage := .afterTrailingHeaders
                  , inRemContentLength :=
                      (match headersContentLength [([103], [48])] with
                       | some n => some n
                       | none => none)
                  , peerTx := true }) },
             (if true then [.deliveredTrailers 1 [([103], [48])]] else []),
             true)
      else .ok ({ streams := [(1, { inMessageStage := .afterInitialHeaders
                                  , inRemContentLength := none
                                  , peerTx := true })] },
                [.sentRst 1 PROTOCOL_ERROR], false)) :=
  ⟨rfl, rfl, fun _ => by decide,
   c6_client_second_headers
     { streams := [(1, { inMessageStage := .afterInitialHeaders
                       , inRemContentLength := none, peerTx := true })] }
     1
     { inMessageStage := .afterInitialHeaders
     , inRemContentLength := none, peerTx := true }
     true [([103], [48])] rfl rfl (fun _ => by decide)⟩

/-- C6 counterexample: a trailer block holding only the `:status`
pseudo-header (name bytes `[58, ...]`, value `"200"`) carries END_STREAM on
a stream in stage `AfterInitialHeaders`, yet the claim's promised delivery
and stage transition do not happen — the pseudo-header fails trailing
validation, so the engine sends RST_STREAM ProtocolError, leaves the
stream unchanged and delivers nothing. -/
theorem c6_invalid_trailers_counterexample :
    CConn.processHeaders
        { streams := [(1, { inMessageStage := .afterInitialHeaders
                          , inRemContentLength := none, peerTx := true })] }
        1 true [([58, 115, 116, 97, 116, 117, 115], [50, 48, 48])] =
      .ok ({ streams := [(1, { inMessageStage := .afterInitialHeaders
                             , inRemContentLength := none, peerTx := true })] },
           [.sentRst 1 PROTOCOL_ERROR], false) := by
  decide

end Http2
